import Mathlib

/-!
# Verification of `bevy_serialization/src/scene.rs`

A shallow embedding of the scene-serialization crate: the `ComponentRegistry`
(`register` / `get`), the `SerializableScene` / `WorldEntity` /
`EntityComponents` / `EntityComponent` serializers, and the parts of the
external collaborators (the legion ECS storage engine and the serde
structured-output layer) that the serializer consumes.

Modelling conventions:
* legion storage (`World`, archetypes, chunksets, chunks, columns, entities)
  is modelled from the spec's description of the storage interface: an
  archetype holds a declared component-type list and chunksets; a chunkset
  holds chunks; `occupied` returns the chunks holding at least one live
  entity; a chunk (`ComponentStorage`) holds the slot entities and one
  column (`ComponentResourceSet`) per component type.
* the serde `Serializer` is modelled as a token-stream sink: serialization
  appends `Token`s to the output stream inside a state, and a fault oracle
  `fault : List Token → Token → Option ε` decides whether the sink rejects
  the next token (a sink/IO error, serde's `S::Error`).  A Rust panic
  (`Option::unwrap` on `None`) is modelled as `Failure.panic` with a message
  naming the unwrap site.
* the `&Scene` and `&ComponentRegistry` borrows held by `SerializableScene`
  are modelled by storing the scene and the registry read-only in the
  serializer state `SerState`, so that the frame property (no mutation) is a
  provable statement rather than a typing accident.
* a registration's `individual_comp_serialize_fn` receives the column, a slot
  index and a callback; since the callback returns nothing, the function's
  observable behaviour is the (finite) sequence of erased values it invokes
  the callback with, which we model as `ComponentResourceSet → Nat → List SerValue`.
-/

namespace BevyScene

/-- Opaque, stable, comparable runtime type identifier (legion's
`ComponentTypeId`), modelled as a natural number. -/
abbrev ComponentTypeId := Nat

/-- Per-column layout metadata (legion's `ComponentMeta`); opaque to the
serializer, which only threads it around. -/
abbrev ComponentMeta := Nat

/-- The erased payload handed to the callback by a registration's
serialize function (one serialized component instance). -/
abbrev SerValue := Nat

/-- An entity: a public index plus an internal generation.  Modelled from the
spec: "identified by an index (its public identity in the emitted output)
plus an internal handle used to address it in storage". -/
structure Entity where
  index : Nat
  generation : Nat
deriving Repr, DecidableEq

/-- A column: the contiguous storage of one component type inside a chunk
(legion's `ComponentResourceSet`).  Its contents are only observable through
a registration's serialize function, so raw slot data suffices. -/
structure ComponentResourceSet where
  data : List SerValue
deriving Repr, DecidableEq

/-- A chunk (legion's `ComponentStorage`): the slot entities plus one column
per component type, keyed by type id. -/
structure ComponentStorage where
  entities : List Entity
  columns : List (ComponentTypeId × ComponentResourceSet)
deriving Repr, DecidableEq

/-- `ComponentStorage::components(type_id)`: the column for a component type,
or `none` when the chunk holds no column for it. -/
def ComponentStorage.components (cs : ComponentStorage) (t : ComponentTypeId) :
    Option ComponentResourceSet :=
  (cs.columns.find? (fun p => p.1 == t)).map (fun p => p.2)

/-- A chunkset (legion): the chunks of one archetype slice. -/
structure Chunkset where
  chunks : List ComponentStorage
deriving Repr, DecidableEq

/-- `Chunkset::occupied()`: the chunks holding at least one live entity.
Modelled from the spec: "chunks are only 'occupied' up to the number of live
entities they hold". -/
def Chunkset.occupied (ck : Chunkset) : List ComponentStorage :=
  ck.chunks.filter (fun c => !c.entities.isEmpty)

/-- An archetype description: the ordered declared list of
`(type_id, layout-metadata)` pairs. -/
structure ArchetypeDescription where
  components : List (ComponentTypeId × ComponentMeta)
deriving Repr, DecidableEq

/-- An archetype: its description plus its chunksets. -/
structure Archetype where
  description : ArchetypeDescription
  chunksets : List Chunkset
deriving Repr, DecidableEq

/-- The storage of a world: the archetypes in storage order. -/
structure Storage where
  archetypes : List Archetype
deriving Repr, DecidableEq

/-- A legion `World`, reduced to the storage the serializer consumes. -/
structure World where
  storage : Storage
deriving Repr, DecidableEq

/-- Modelled from the spec: legion's `World::iter_entities` enumerates every
live entity of the world; live entities are exactly the slot entities held by
the chunks of the storage. -/
def World.iterEntities (w : World) : List Entity :=
  w.storage.archetypes.flatMap fun a =>
    a.chunksets.flatMap fun ck =>
      ck.chunks.flatMap fun c => c.entities

/-- `world.iter_entities().count()`: the total live-entity count. -/
def World.iterEntitiesCount (w : World) : Nat :=
  w.iterEntities.length

/-- The `Scene` container: it owns the world. -/
structure Scene where
  world : World
deriving Repr, DecidableEq

/-- A component registration: the component's type id plus the type-erased
"serialize one instance" function.  `individual_comp_serialize_fn` is
modelled by the sequence of erased values it invokes its callback with,
as a function of the column and the slot index. -/
structure ComponentRegistration where
  ty : ComponentTypeId
  individual_comp_serialize_fn : ComponentResourceSet → Nat → List SerValue

/-- The component registry: a map from type id to registration, backed by a
`HashMap` in the source; modelled as an association list whose `insert`
replaces the previous binding of the key (Rust `HashMap::insert`). -/
structure ComponentRegistry where
  registrations : List (ComponentTypeId × ComponentRegistration)

/-- `ComponentRegistry::register<T>()`: build `ComponentRegistration::of::<T>()`
(here: the registration standing for `T`) and insert it under its type id,
replacing any previous binding. -/
def ComponentRegistry.register (r : ComponentRegistry)
    (reg : ComponentRegistration) : ComponentRegistry :=
  { registrations := (reg.ty, reg) :: r.registrations.filter (fun p => p.1 != reg.ty) }

/-- `ComponentRegistry::get(type_id)`: the registration for a type id, or
`none` when the type was never registered. -/
def ComponentRegistry.get (r : ComponentRegistry) (t : ComponentTypeId) :
    Option ComponentRegistration :=
  (r.registrations.find? (fun p => p.1 == t)).map (fun p => p.2)

/-- The empty registry. -/
def ComponentRegistry.empty : ComponentRegistry := { registrations := [] }

/-! ## The structured-output sink (serde `Serializer`) and serializer state -/

/-- The tokens the serializer hands to the structured-output sink: sequence
begin (with an optional length hint) / end, struct begin (name and declared
field count) / end, a field key, a scalar (the entity index), and an erased
serialized component value. -/
inductive Token where
  | seqBegin (hint : Option Nat)
  | seqEnd
  | structBegin (name : String) (nfields : Nat)
  | structEnd
  | fieldKey (name : String)
  | natVal (n : Nat)
  | value (v : SerValue)
deriving Repr, DecidableEq

/-- How a serialization pass fails: a Rust panic (an `unwrap` of `None`,
tagged with the unwrap site) or an error of the output sink (serde's
`S::Error`). -/
inductive Failure (ε : Type) where
  | panic (msg : String)
  | sink (e : ε)
deriving Repr, DecidableEq

/-- The state threaded through a serialization pass: the borrowed scene and
registry (read-only in the source — the frame property is proved below) and
the token stream written to the sink so far. -/
structure SerState where
  scene : Scene
  registry : ComponentRegistry
  out : List Token

/-- The serialization monad: a state transformer that may fail.  The state is
returned in the error case too, so "the scene and registry are unchanged even
when serialize errors" is statable. -/
def SerM (ε α : Type) := SerState → Except (Failure ε) α × SerState

/-- Panic site of `self.component_storage.components(*component_type).unwrap()`
(scene.rs line 127). -/
def unwrapColumnMsg : String := "called Option::unwrap() on a None value (ComponentStorage::components)"

/-- Panic site of `self.component_registry.get(*component_type).unwrap()`
(scene.rs line 128). -/
def unwrapRegistrationMsg : String := "called Option::unwrap() on a None value (ComponentRegistry::get)"

/-- Panic site of `serializer.borrow_mut().take().unwrap()` when the cell was
already consumed (scene.rs line 154). -/
def unwrapTakenMsg : String := "called Option::unwrap() on a None value (serializer cell already taken)"

/-- Panic site of `result.unwrap()` when the callback was never invoked
(scene.rs line 159). -/
def unwrapResultMsg : String := "called Option::unwrap() on a None value (no serialization result)"

/-- A sink that never fails. -/
def NoFault {ε : Type} (fault : List Token → Token → Option ε) : Prop :=
  ∀ pre t, fault pre t = none

section Serializer

variable {ε : Type} (fault : List Token → Token → Option ε)

/-- Hand one token to the sink: the fault oracle decides, from the stream so
far and the token, whether the sink rejects it. -/
def emitToken (t : Token) : SerM ε Unit := fun st =>
  match fault st.out t with
  | some e => (Except.error (Failure.sink e), st)
  | none => (Except.ok (), { st with out := st.out ++ [t] })

/-- Sequencing with serde's `?` error propagation: an error short-circuits. -/
def bindU (x : Except (Failure ε) Unit × SerState)
    (f : SerState → Except (Failure ε) Unit × SerState) :
    Except (Failure ε) Unit × SerState :=
  match x with
  | (Except.error e, st) => (Except.error e, st)
  | (Except.ok _, st) => f st

/-! ### `EntityComponent` (scene.rs lines 135-160) -/

/-- The borrowed data of one component instance to serialize. -/
structure EntityComponent where
  index : Nat
  component_resource_set : ComponentResourceSet
  component_registration : ComponentRegistration

/-- `erased_serde::serialize(serialize, serializer)`: run one erased value
against the serializer taken from the cell; this is the serde serialization
of the component value, which can only fail with a sink error. -/
def serializeErased (v : SerValue) (st : SerState) : Except ε Unit × SerState :=
  match fault st.out (Token.value v) with
  | some e => (Except.error e, st)
  | none => (Except.ok (), { st with out := st.out ++ [Token.value v] })

/-- The callback of `EntityComponent::serialize`: each invocation takes the
serializer out of the `RefCell<Option<_>>` (`take().unwrap()` — a second
invocation panics because the cell is empty) and stores the serialization
result in `result`.  `vals` is the sequence of values the registration's
`individual_comp_serialize_fn` invokes the callback with. -/
def ecCallbackLoop (vals : List SerValue) (cell : Bool)
    (result : Option (Except ε Unit × SerState)) (st : SerState) :
    Except (Failure ε) (Option (Except ε Unit × SerState)) × SerState :=
  match vals with
  | [] => (Except.ok result, st)
  | v :: rest =>
    match cell with
    | true => ecCallbackLoop rest false (some (serializeErased fault v st)) st
    | false => (Except.error (Failure.panic unwrapTakenMsg), st)

/-- `impl Serialize for EntityComponent` (scene.rs lines 141-160): run the
registration's serialize function with the callback, then `result.unwrap()`
(a panic when the callback was never invoked). -/
def EntityComponent.serialize (ec : EntityComponent) : SerM ε Unit := fun st =>
  match ecCallbackLoop fault
      (ec.component_registration.individual_comp_serialize_fn
        ec.component_resource_set ec.index)
      true none st with
  | (Except.error f, st1) => (Except.error f, st1)
  | (Except.ok none, st1) => (Except.error (Failure.panic unwrapResultMsg), st1)
  | (Except.ok (some (Except.error e, st2)), _) => (Except.error (Failure.sink e), st2)
  | (Except.ok (some (Except.ok _, st2)), _) => (Except.ok (), st2)

/-! ### `EntityComponents` (scene.rs lines 111-133) -/

/-- The element loop of `EntityComponents::serialize`: for each declared
`(type, meta)` pair in the archetype's order, unwrap the chunk's column for
the type, unwrap the registry's registration for the type, and serialize one
`EntityComponent`. -/
def serializeComponents (index : Nat) (cs : ComponentStorage) :
    List (ComponentTypeId × ComponentMeta) → SerM ε Unit
  | [] => fun st => (Except.ok (), st)
  | (t, _) :: rest => fun st =>
    match cs.components t with
    | none => (Except.error (Failure.panic unwrapColumnMsg), st)
    | some set =>
      match st.registry.get t with
      | none => (Except.error (Failure.panic unwrapRegistrationMsg), st)
      | some reg =>
        bindU
          (EntityComponent.serialize fault
            { index := index, component_resource_set := set,
              component_registration := reg } st)
          (fun st1 => serializeComponents index cs rest st1)

/-- The borrowed data of one entity's component list. -/
structure EntityComponents where
  index : Nat
  archetype_components : List (ComponentTypeId × ComponentMeta)
  component_storage : ComponentStorage

/-- `impl Serialize for EntityComponents` (scene.rs lines 118-133):
`serialize_seq(Some(len))`, one element per declared component type, `end`. -/
def EntityComponents.serialize (e : EntityComponents) : SerM ε Unit := fun st =>
  bindU (emitToken fault (Token.seqBegin (some e.archetype_components.length)) st)
    (fun st1 =>
      bindU (serializeComponents fault e.index e.component_storage
          e.archetype_components st1)
        (fun st2 => emitToken fault Token.seqEnd st2))

/-! ### `WorldEntity` (scene.rs lines 83-109) -/

/-- The borrowed data of one entity record. -/
structure WorldEntity where
  archetype_components : List (ComponentTypeId × ComponentMeta)
  component_storage : ComponentStorage
  entity : Entity
  index : Nat

/-- `impl Serialize for WorldEntity` (scene.rs lines 91-109):
`serialize_struct("Entity", 2)`, field `id` = `self.entity.index()`, field
`components` = the `EntityComponents` sequence, `end`. -/
def WorldEntity.serialize (we : WorldEntity) : SerM ε Unit := fun st =>
  bindU (emitToken fault (Token.structBegin "Entity" 2) st) (fun st1 =>
  bindU (emitToken fault (Token.fieldKey "id") st1) (fun st2 =>
  bindU (emitToken fault (Token.natVal we.entity.index) st2) (fun st3 =>
  bindU (emitToken fault (Token.fieldKey "components") st3) (fun st4 =>
  bindU (EntityComponents.serialize fault
      { index := we.index, archetype_components := we.archetype_components,
        component_storage := we.component_storage } st4)
    (fun st5 => emitToken fault Token.structEnd st5)))))

/-! ### `SerializableScene` (scene.rs lines 36-81) -/

/-- The slot loop: `for (index, entity) in
component_storage.entities().iter().enumerate()`, serializing one
`WorldEntity` per occupied slot. -/
def serializeSlots (ac : List (ComponentTypeId × ComponentMeta))
    (cs : ComponentStorage) : Nat → List Entity → SerM ε Unit
  | _, [] => fun st => (Except.ok (), st)
  | i, e :: rest => fun st =>
    bindU
      (WorldEntity.serialize fault
        { archetype_components := ac, component_storage := cs,
          entity := e, index := i } st)
      (fun st1 => serializeSlots ac cs (i + 1) rest st1)

/-- The chunk loop: `for component_storage in chunkset.occupied()`. -/
def serializeChunks (ac : List (ComponentTypeId × ComponentMeta)) :
    List ComponentStorage → SerM ε Unit
  | [] => fun st => (Except.ok (), st)
  | c :: rest => fun st =>
    bindU (serializeSlots fault ac c 0 c.entities st)
      (fun st1 => serializeChunks ac rest st1)

/-- The chunkset loop: `for chunkset in archetype.chunksets()`. -/
def serializeChunksets (ac : List (ComponentTypeId × ComponentMeta)) :
    List Chunkset → SerM ε Unit
  | [] => fun st => (Except.ok (), st)
  | ck :: rest => fun st =>
    bindU (serializeChunks fault ac ck.occupied st)
      (fun st1 => serializeChunksets ac rest st1)

/-- The archetype loop: `for archetype in self.scene.world.storage().archetypes()`,
each archetype serialized against its own declared component list. -/
def serializeArchetypes : List Archetype → SerM ε Unit
  | [] => fun st => (Except.ok (), st)
  | a :: rest => fun st =>
    bindU (serializeChunksets fault a.description.components a.chunksets st)
      (fun st1 => serializeArchetypes rest st1)

/-- `impl Serialize for SerializableScene` (scene.rs lines 50-81):
`serialize_seq(Some(world.iter_entities().count()))`, the archetype →
chunkset → occupied chunk → slot traversal, `end`.  The `&Scene` and
`&ComponentRegistry` borrows of the `SerializableScene` view are the scene
and registry stored read-only in the state. -/
def SerializableScene.serialize : SerM ε Unit := fun st =>
  bindU (emitToken fault (Token.seqBegin (some st.scene.world.iterEntitiesCount)) st)
    (fun st1 =>
      bindU (serializeArchetypes fault st1.scene.world.storage.archetypes st1)
        (fun st2 => emitToken fault Token.seqEnd st2))

end Serializer

/-! ## Expected output and well-formedness predicates -/

/-- The values the registration for type `t` feeds the callback for the slot
`idx` of chunk `cs` (empty when the column or the registration is missing). -/
def compValues (registry : ComponentRegistry) (cs : ComponentStorage)
    (idx : Nat) (t : ComponentTypeId) : List SerValue :=
  match cs.components t, registry.get t with
  | some set, some reg => reg.individual_comp_serialize_fn set idx
  | some _, none => []
  | none, _ => []

/-- The single value serialized for `(cs, idx, t)` under a well-behaved
registration (which invokes the callback exactly once). -/
def compValue (registry : ComponentRegistry) (cs : ComponentStorage)
    (idx : Nat) (t : ComponentTypeId) : SerValue :=
  (compValues registry cs idx t).headD 0

/-- The component-value tokens of one entity record, in the archetype's
declared type order. -/
def componentTokens (registry : ComponentRegistry) (cs : ComponentStorage)
    (idx : Nat) (comps : List (ComponentTypeId × ComponentMeta)) : List Token :=
  comps.flatMap (fun p => (compValues registry cs idx p.1).map Token.value)

/-- The tokens of one emitted entity record. -/
def entityTokens (registry : ComponentRegistry)
    (ac : List (ComponentTypeId × ComponentMeta)) (cs : ComponentStorage)
    (idx : Nat) (e : Entity) : List Token :=
  [Token.structBegin "Entity" 2, Token.fieldKey "id", Token.natVal e.index,
   Token.fieldKey "components", Token.seqBegin (some ac.length)]
    ++ componentTokens registry cs idx ac ++ [Token.seqEnd, Token.structEnd]

/-- The tokens of the slots of one chunk, starting at slot index `i`. -/
def slotsTokens (registry : ComponentRegistry)
    (ac : List (ComponentTypeId × ComponentMeta)) (cs : ComponentStorage) :
    Nat → List Entity → List Token
  | _, [] => []
  | i, e :: rest =>
    entityTokens registry ac cs i e ++ slotsTokens registry ac cs (i + 1) rest

/-- The tokens of a list of chunks. -/
def chunksTokens (registry : ComponentRegistry)
    (ac : List (ComponentTypeId × ComponentMeta))
    (chunks : List ComponentStorage) : List Token :=
  chunks.flatMap (fun c => slotsTokens registry ac c 0 c.entities)

/-- The tokens of one archetype: its chunksets' occupied chunks. -/
def archetypeTokens (registry : ComponentRegistry) (a : Archetype) : List Token :=
  a.chunksets.flatMap (fun ck => chunksTokens registry a.description.components ck.occupied)

/-- The full expected token stream of a successful serialization pass. -/
def sceneTokens (sc : Scene) (registry : ComponentRegistry) : List Token :=
  Token.seqBegin (some sc.world.iterEntitiesCount)
    :: sc.world.storage.archetypes.flatMap (archetypeTokens registry)
    ++ [Token.seqEnd]

/-- Per-slot full well-formedness: every declared component type has a column
in the chunk and a registration, and that registration invokes the callback
exactly once at this slot. -/
def RegWF (registry : ComponentRegistry) (cs : ComponentStorage) (idx : Nat)
    (comps : List (ComponentTypeId × ComponentMeta)) : Prop :=
  ∀ p ∈ comps, ∃ set reg, cs.components p.1 = some set ∧
    registry.get p.1 = some reg ∧
    (reg.individual_comp_serialize_fn set idx).length = 1

/-- Per-slot single-invocation discipline: whatever registrations exist for
the declared types invoke the callback exactly once at this slot. -/
def SingleInv (registry : ComponentRegistry) (cs : ComponentStorage) (idx : Nat)
    (comps : List (ComponentTypeId × ComponentMeta)) : Prop :=
  ∀ p ∈ comps, ∀ set reg, cs.components p.1 = some set →
    registry.get p.1 = some reg →
    (reg.individual_comp_serialize_fn set idx).length = 1

/-- `SingleInv` at every slot of a chunk. -/
def ChunkSingle (registry : ComponentRegistry) (cs : ComponentStorage)
    (comps : List (ComponentTypeId × ComponentMeta)) : Prop :=
  ∀ k, k < cs.entities.length → SingleInv registry cs k comps

/-- `RegWF` at every slot of a chunk. -/
def ChunkWF (registry : ComponentRegistry) (cs : ComponentStorage)
    (comps : List (ComponentTypeId × ComponentMeta)) : Prop :=
  ∀ k, k < cs.entities.length → RegWF registry cs k comps

/-- Single-invocation discipline across the whole scene. -/
def SceneSingle (registry : ComponentRegistry) (sc : Scene) : Prop :=
  ∀ a ∈ sc.world.storage.archetypes, ∀ ck ∈ a.chunksets, ∀ c ∈ ck.occupied,
    ChunkSingle registry c a.description.components

/-- Full well-formedness across the whole scene: every declared type of every
archetype with an occupied chunk has a column and a single-invocation
registration at every occupied slot. -/
def SceneWF (registry : ComponentRegistry) (sc : Scene) : Prop :=
  ∀ a ∈ sc.world.storage.archetypes, ∀ ck ∈ a.chunksets, ∀ c ∈ ck.occupied,
    ChunkWF registry c a.description.components

/-- Some declared component type has no column in the chunk. -/
def CompsBadCol (cs : ComponentStorage)
    (comps : List (ComponentTypeId × ComponentMeta)) : Prop :=
  ∃ p ∈ comps, cs.components p.1 = none

/-- Some declared component type has a column but no registration. -/
def CompsBadReg (registry : ComponentRegistry) (cs : ComponentStorage)
    (comps : List (ComponentTypeId × ComponentMeta)) : Prop :=
  ∃ p ∈ comps, (∃ set, cs.components p.1 = some set) ∧ registry.get p.1 = none

/-- Somewhere in the scene, an occupied chunk lacks a column for a declared
type of its archetype. -/
def SceneBadCol (sc : Scene) : Prop :=
  ∃ a ∈ sc.world.storage.archetypes, ∃ ck ∈ a.chunksets, ∃ c ∈ ck.occupied,
    CompsBadCol c a.description.components

/-- Somewhere in the scene, an occupied chunk holds a component (with its
column present) whose type has no entry in the registry. -/
def SceneBadReg (registry : ComponentRegistry) (sc : Scene) : Prop :=
  ∃ a ∈ sc.world.storage.archetypes, ∃ ck ∈ a.chunksets, ∃ c ∈ ck.occupied,
    CompsBadReg registry c a.description.components

/-- All columns declared by archetypes with occupied chunks are present. -/
def SceneColsOK (sc : Scene) : Prop :=
  ∀ a ∈ sc.world.storage.archetypes, ∀ ck ∈ a.chunksets, ∀ c ∈ ck.occupied,
    ∀ p ∈ a.description.components, ∃ set, c.components p.1 = some set

/-- Every component type declared by an archetype with an occupied chunk is
registered. -/
def SceneRegsOK (registry : ComponentRegistry) (sc : Scene) : Prop :=
  ∀ a ∈ sc.world.storage.archetypes, ∀ ck ∈ a.chunksets, ∀ c ∈ ck.occupied,
    ∀ p ∈ a.description.components, ∃ reg, registry.get p.1 = some reg

/-- The entities the serialization traversal visits, in traversal order:
archetypes → chunksets → occupied chunks → slots. -/
def traversalEntities (sc : Scene) : List Entity :=
  sc.world.storage.archetypes.flatMap fun a =>
    a.chunksets.flatMap fun ck =>
      ck.occupied.flatMap fun c => c.entities

/-- `new` extends `base` on the sink without any fault: every token of `new`
was accepted by the fault oracle at exactly the stream prefix it was written
after. -/
def FaultFree {ε : Type} (fault : List Token → Token → Option ε) :
    List Token → List Token → Prop
  | _, [] => True
  | base, t :: rest => fault base t = none ∧ FaultFree fault (base ++ [t]) rest

/-- Soundness of one serialization-step result `r` issued from state `st`:
the scene and registry are untouched, the sink stream only grows, any sink
error in the result is verbatim a value produced by the fault oracle, and a
successful result wrote a fault-free extension of the stream. -/
def SoundRes {ε : Type} (fault : List Token → Token → Option ε)
    (st : SerState) (r : Except (Failure ε) Unit × SerState) : Prop :=
  r.2.scene = st.scene ∧
  r.2.registry = st.registry ∧
  (∃ new, r.2.out = st.out ++ new) ∧
  (∀ e, r.1 = Except.error (Failure.sink e) → ∃ pre t, fault pre t = some e) ∧
  (∀ u, r.1 = Except.ok u →
    ∃ new, r.2.out = st.out ++ new ∧ FaultFree fault st.out new)

/-- A serialization step is sound from every state. -/
def Sound {ε : Type} (fault : List Token → Token → Option ε)
    (m : SerM ε Unit) : Prop :=
  ∀ st, SoundRes fault st (m st)

/-- Record starts in a token stream: in this model the only structs emitted
are the entity records. -/
def isRecordStart : Token → Bool
  | Token.structBegin _ _ => true
  | _ => false

/-- The number of entity records in a token stream. -/
def countRecords (ts : List Token) : Nat :=
  ts.countP isRecordStart

/-- The scalar payload of a token, when it is one: in this model the only
`natVal` tokens emitted are the values of `id` fields. -/
def idTokenVal : Token → Option Nat
  | Token.natVal n => some n
  | _ => none

/-- The `id` scalars of a token stream, in emission order. -/
def recordIds (ts : List Token) : List Nat :=
  ts.filterMap idTokenVal

/-! ## Concrete fixtures: the spec's example scenario and failure variants -/

/-- Registration for the example `Position` component type (type id 1):
serializes the slot's raw column value, invoking the callback exactly once. -/
def posRegistration : ComponentRegistration :=
  { ty := 1, individual_comp_serialize_fn := fun set idx => [set.data.getD idx 0] }

/-- Registration for the example `Velocity` component type (type id 2). -/
def velRegistration : ComponentRegistration :=
  { ty := 2, individual_comp_serialize_fn := fun set idx => [set.data.getD idx 0] }

/-- A second, different registration for type id 1 (the overwrite scenario). -/
def posRegistrationB : ComponentRegistration :=
  { ty := 1, individual_comp_serialize_fn := fun set idx => [set.data.getD idx 0 + 1] }

/-- Registry with both example types registered. -/
def exampleRegistry : ComponentRegistry :=
  (ComponentRegistry.empty.register posRegistration).register velRegistration

/-- Registry with only `Position` registered. -/
def posOnlyRegistry : ComponentRegistry :=
  ComponentRegistry.empty.register posRegistration

/-- One chunk of archetype A = {Position}: two entities. -/
def chunkA : ComponentStorage :=
  { entities := [⟨0, 1⟩, ⟨1, 1⟩], columns := [(1, ⟨[10, 11]⟩)] }

/-- One chunk of archetype B = {Position, Velocity}: one entity. -/
def chunkB : ComponentStorage :=
  { entities := [⟨2, 1⟩], columns := [(1, ⟨[12]⟩), (2, ⟨[20]⟩)] }

/-- Archetype A = {Position}. -/
def archA : Archetype := { description := ⟨[(1, 0)]⟩, chunksets := [⟨[chunkA]⟩] }

/-- Archetype B = {Position, Velocity}. -/
def archB : Archetype := { description := ⟨[(1, 0), (2, 0)]⟩, chunksets := [⟨[chunkB]⟩] }

/-- The spec's example scenario: archetype A = {Position} holding two
entities, archetype B = {Position, Velocity} holding one entity. -/
def exampleScene : Scene :=
  { world := { storage := { archetypes := [archA, archB] } } }

/-- A chunk for archetype B that is missing the Velocity column. -/
def chunkNoVelCol : ComponentStorage :=
  { entities := [⟨2, 1⟩], columns := [(1, ⟨[12]⟩)] }

/-- Archetype B with the defective chunk. -/
def archNoVelCol : Archetype :=
  { description := ⟨[(1, 0), (2, 0)]⟩, chunksets := [⟨[chunkNoVelCol]⟩] }

/-- A scene whose only archetype declares a type with no column. -/
def sceneNoVelCol : Scene :=
  { world := { storage := { archetypes := [archNoVelCol] } } }

/-- The never-failing sink. -/
def noFaultSink : List Token → Token → Option Nat := fun _ _ => none

/-- A sink that rejects every token with error 7. -/
def failSink : List Token → Token → Option Nat := fun _ _ => some 7

/-- Initial state over the example scene/registry. -/
def exampleState : SerState :=
  { scene := exampleScene, registry := exampleRegistry, out := [] }

/-- Initial state with `Velocity` left unregistered. -/
def posOnlyState : SerState :=
  { scene := exampleScene, registry := posOnlyRegistry, out := [] }

/-- Initial state with the Velocity column missing from storage. -/
def noVelColState : SerState :=
  { scene := sceneNoVelCol, registry := exampleRegistry, out := [] }

/-! ## Theorems: the component registry -/

theorem ComponentRegistry.get_register_self (r : ComponentRegistry)
    (reg : ComponentRegistration) : (r.register reg).get reg.ty = some reg := by
  simp [ComponentRegistry.register, ComponentRegistry.get, List.find?]

/-- Filtering out the bindings of a key `k` does not change `find?` for a
different key `t`. -/
theorem find?_filter_ne_key (l : List (ComponentTypeId × ComponentRegistration))
    (k t : ComponentTypeId) (hne : t ≠ k) :
    (l.filter (fun p => p.1 != k)).find? (fun p => p.1 == t) =
      l.find? (fun p => p.1 == t) := by
  induction l with
  | nil => rfl
  | cons q rest ih =>
    by_cases hqk : q.1 = k
    · have hkeep : (q.1 != k) = false := by simp [hqk]
      have hqt : (q.1 == t) = false := by
        simp only [beq_eq_false_iff_ne, ne_eq]
        intro h
        exact hne (h ▸ hqk)
      simp only [List.filter, hkeep, List.find?, hqt]
      exact ih
    · have hkeep : (q.1 != k) = true := by simp [hqk]
      simp only [List.filter, hkeep, List.find?]
      cases hqt : (q.1 == t) with
      | true => rfl
      | false => exact ih

theorem ComponentRegistry.get_register_other (r : ComponentRegistry)
    (reg : ComponentRegistration) (t : ComponentTypeId) (hne : t ≠ reg.ty) :
    (r.register reg).get t = r.get t := by
  unfold ComponentRegistry.register ComponentRegistry.get
  have hbeq : (reg.ty == t) = false := by
    simp only [beq_eq_false_iff_ne, ne_eq]
    exact fun h => hne h.symm
  simp only [List.find?, hbeq]
  rw [find?_filter_ne_key r.registrations reg.ty t hne]

/-! ## Basic lemmas about the serialization monad -/

theorem emitToken_noFault {ε : Type} {fault : List Token → Token → Option ε}
    (hNF : NoFault fault) (t : Token) (st : SerState) :
    emitToken fault t st = (Except.ok (), { st with out := st.out ++ [t] }) := by
  unfold emitToken
  rw [hNF st.out t]

theorem bindU_ok {ε : Type} (u : Unit) (st : SerState)
    (f : SerState → Except (Failure ε) Unit × SerState) :
    bindU (Except.ok u, st) f = f st := rfl

theorem bindU_error {ε : Type} (e : Failure ε) (st : SerState)
    (f : SerState → Except (Failure ε) Unit × SerState) :
    bindU (Except.error e, st) f = (Except.error e, st) := rfl

theorem bindU_fst_error {ε : Type} (x : Except (Failure ε) Unit × SerState)
    (f : SerState → Except (Failure ε) Unit × SerState) (e : Failure ε)
    (h : x.1 = Except.error e) : bindU x f = (Except.error e, x.2) := by
  obtain ⟨x1, x2⟩ := x
  cases x1 with
  | error e2 =>
    simp only at h
    rw [h]
    rfl
  | ok u => exact absurd h (by simp)

/-- A registration that invokes the callback exactly once serializes the one
value against the sink; with a non-faulting sink this appends one value
token. -/
theorem ec_serialize_single {ε : Type} {fault : List Token → Token → Option ε}
    (hNF : NoFault fault) (ec : EntityComponent) (v : SerValue)
    (hv : ec.component_registration.individual_comp_serialize_fn
        ec.component_resource_set ec.index = [v]) (st : SerState) :
    EntityComponent.serialize fault ec st =
      (Except.ok (), { st with out := st.out ++ [Token.value v] }) := by
  unfold EntityComponent.serialize
  rw [hv]
  simp [ecCallbackLoop, serializeErased, hNF st.out (Token.value v)]

/-! ## The traversal trichotomy: success with the expected tokens, a panic at
the column unwrap, or a panic at the registration unwrap -/

theorem serializeComponents_tri {ε : Type} (fault : List Token → Token → Option ε)
    (hNF : NoFault fault) (idx : Nat) (cs : ComponentStorage)
    (comps : List (ComponentTypeId × ComponentMeta)) (st : SerState)
    (hSI : SingleInv st.registry cs idx comps) :
    (RegWF st.registry cs idx comps ∧
      serializeComponents fault idx cs comps st =
        (Except.ok (),
          { st with out := st.out ++ componentTokens st.registry cs idx comps })) ∨
    (CompsBadCol cs comps ∧
      (serializeComponents fault idx cs comps st).1 =
        Except.error (Failure.panic unwrapColumnMsg)) ∨
    (CompsBadReg st.registry cs comps ∧
      (serializeComponents fault idx cs comps st).1 =
        Except.error (Failure.panic unwrapRegistrationMsg)) := by
  induction comps generalizing st with
  | nil =>
    left
    refine ⟨fun p hp => absurd hp (List.not_mem_nil p), ?_⟩
    simp [serializeComponents, componentTokens]
  | cons q rest ih =>
    obtain ⟨t, m⟩ := q
    cases hcol : cs.components t with
    | none =>
      right; left
      refine ⟨⟨(t, m), List.mem_cons_self _ _, hcol⟩, ?_⟩
      simp [serializeComponents, hcol]
    | some set =>
      cases hreg : st.registry.get t with
      | none =>
        right; right
        refine ⟨⟨(t, m), List.mem_cons_self _ _, ⟨set, hcol⟩, hreg⟩, ?_⟩
        simp [serializeComponents, hcol, hreg]
      | some reg =>
        have hlen : (reg.individual_comp_serialize_fn set idx).length = 1 :=
          hSI (t, m) (List.mem_cons_self _ _) set reg hcol hreg
        obtain ⟨v, hv⟩ := List.length_eq_one.mp hlen
        have hec := ec_serialize_single hNF
          { index := idx, component_resource_set := set,
            component_registration := reg } v hv st
        have hstep : serializeComponents fault idx cs ((t, m) :: rest) st =
            serializeComponents fault idx cs rest
              { st with out := st.out ++ [Token.value v] } := by
          simp only [serializeComponents, hcol, hreg, hec, bindU_ok]
        have hSIrest : SingleInv st.registry cs idx rest :=
          fun p hp => hSI p (List.mem_cons_of_mem _ hp)
        have hcv : compValues st.registry cs idx t = [v] := by
          simp [compValues, hcol, hreg, hv]
        have hct : componentTokens st.registry cs idx ((t, m) :: rest) =
            Token.value v :: componentTokens st.registry cs idx rest := by
          simp [componentTokens, hcv]
        rcases ih { st with out := st.out ++ [Token.value v] } hSIrest with
          ⟨hwf, hrun⟩ | ⟨hbad, hrun⟩ | ⟨hbad, hrun⟩
        · left
          constructor
          · intro p hp
            rcases List.mem_cons.mp hp with hpq | hpr
            · exact hpq ▸ ⟨set, reg, hcol, hreg, hlen⟩
            · exact hwf p hpr
          · rw [hstep, hrun, hct]
            simp
        · right; left
          obtain ⟨p, hp, hpcol⟩ := hbad
          refine ⟨⟨p, List.mem_cons_of_mem _ hp, hpcol⟩, ?_⟩
          rw [hstep]
          exact hrun
        · right; right
          obtain ⟨p, hp, hpset, hpreg⟩ := hbad
          refine ⟨⟨p, List.mem_cons_of_mem _ hp, hpset, hpreg⟩, ?_⟩
          rw [hstep]
          exact hrun

theorem entityComponents_tri {ε : Type} (fault : List Token → Token → Option ε)
    (hNF : NoFault fault) (e : EntityComponents) (st : SerState)
    (hSI : SingleInv st.registry e.component_storage e.index e.archetype_components) :
    (RegWF st.registry e.component_storage e.index e.archetype_components ∧
      EntityComponents.serialize fault e st =
        (Except.ok (), { st with out := st.out ++
          (Token.seqBegin (some e.archetype_components.length)
            :: componentTokens st.registry e.component_storage e.index
                e.archetype_components ++ [Token.seqEnd]) })) ∨
    (CompsBadCol e.component_storage e.archetype_components ∧
      (EntityComponents.serialize fault e st).1 =
        Except.error (Failure.panic unwrapColumnMsg)) ∨
    (CompsBadReg st.registry e.component_storage e.archetype_components ∧
      (EntityComponents.serialize fault e st).1 =
        Except.error (Failure.panic unwrapRegistrationMsg)) := by
  have hemit := emitToken_noFault hNF
    (Token.seqBegin (some e.archetype_components.length)) st
  set st1 : SerState :=
    { st with out := st.out ++ [Token.seqBegin (some e.archetype_components.length)] }
    with hst1
  have hstep : EntityComponents.serialize fault e st =
      bindU (serializeComponents fault e.index e.component_storage
          e.archetype_components st1)
        (fun st2 => emitToken fault Token.seqEnd st2) := by
    simp only [EntityComponents.serialize, hemit, bindU_ok]
  rcases serializeComponents_tri fault hNF e.index e.component_storage
      e.archetype_components st1 hSI with ⟨hwf, hrun⟩ | ⟨hbad, hrun⟩ | ⟨hbad, hrun⟩
  · left
    refine ⟨hwf, ?_⟩
    rw [hstep, hrun, bindU_ok, emitToken_noFault hNF]
    simp [hst1, List.append_assoc]
  · right; left
    exact ⟨hbad, by rw [hstep, bindU_fst_error _ _ _ hrun]⟩
  · right; right
    exact ⟨hbad, by rw [hstep, bindU_fst_error _ _ _ hrun]⟩

theorem worldEntity_tri {ε : Type} (fault : List Token → Token → Option ε)
    (hNF : NoFault fault) (we : WorldEntity) (st : SerState)
    (hSI : SingleInv st.registry we.component_storage we.index we.archetype_components) :
    (RegWF st.registry we.component_storage we.index we.archetype_components ∧
      WorldEntity.serialize fault we st =
        (Except.ok (), { st with out := st.out ++
          (entityTokens st.registry we.archetype_components we.component_storage
            we.index we.entity) })) ∨
    (CompsBadCol we.component_storage we.archetype_components ∧
      (WorldEntity.serialize fault we st).1 =
        Except.error (Failure.panic unwrapColumnMsg)) ∨
    (CompsBadReg st.registry we.component_storage we.archetype_components ∧
      (WorldEntity.serialize fault we st).1 =
        Except.error (Failure.panic unwrapRegistrationMsg)) := by
  set st4 : SerState :=
    { st with out := st.out ++
      [Token.structBegin "Entity" 2, Token.fieldKey "id",
       Token.natVal we.entity.index, Token.fieldKey "components"] } with hst4
  have hstep : WorldEntity.serialize fault we st =
      bindU (EntityComponents.serialize fault
          { index := we.index, archetype_components := we.archetype_components,
            component_storage := we.component_storage } st4)
        (fun st5 => emitToken fault Token.structEnd st5) := by
    simp only [WorldEntity.serialize, emitToken_noFault hNF, bindU_ok, hst4]
    simp [List.append_assoc]
  rcases entityComponents_tri fault hNF
      { index := we.index, archetype_components := we.archetype_components,
        component_storage := we.component_storage } st4 hSI with
    ⟨hwf, hrun⟩ | ⟨hbad, hrun⟩ | ⟨hbad, hrun⟩
  · left
    refine ⟨hwf, ?_⟩
    rw [hstep, hrun, bindU_ok, emitToken_noFault hNF]
    simp [hst4, entityTokens, List.append_assoc]
  · right; left
    exact ⟨hbad, by rw [hstep, bindU_fst_error _ _ _ hrun]⟩
  · right; right
    exact ⟨hbad, by rw [hstep, bindU_fst_error _ _ _ hrun]⟩

theorem serializeSlots_tri {ε : Type} (fault : List Token → Token → Option ε)
    (hNF : NoFault fault) (ac : List (ComponentTypeId × ComponentMeta))
    (cs : ComponentStorage) (es : List Entity) (i : Nat) (st : SerState)
    (hSI : ∀ k, k < es.length → SingleInv st.registry cs (i + k) ac) :
    ((∀ k, k < es.length → RegWF st.registry cs (i + k) ac) ∧
      serializeSlots fault ac cs i es st =
        (Except.ok (), { st with out := st.out ++ slotsTokens st.registry ac cs i es })) ∨
    (CompsBadCol cs ac ∧
      (serializeSlots fault ac cs i es st).1 =
        Except.error (Failure.panic unwrapColumnMsg)) ∨
    (CompsBadReg st.registry cs ac ∧
      (serializeSlots fault ac cs i es st).1 =
        Except.error (Failure.panic unwrapRegistrationMsg)) := by
  induction es generalizing i st with
  | nil =>
    left
    refine ⟨fun k hk => absurd hk (Nat.not_lt_zero k), ?_⟩
    simp [serializeSlots, slotsTokens]
  | cons e rest ih =>
    have hSI0 : SingleInv st.registry cs i ac := by
      have h := hSI 0 (Nat.succ_pos rest.length)
      simpa using h
    rcases worldEntity_tri fault hNF
        { archetype_components := ac, component_storage := cs, entity := e, index := i }
        st hSI0 with ⟨hwf, hrun⟩ | ⟨hbad, hrun⟩ | ⟨hbad, hrun⟩
    · have hstep : serializeSlots fault ac cs i (e :: rest) st =
          serializeSlots fault ac cs (i + 1) rest
            { st with out := st.out ++ entityTokens st.registry ac cs i e } := by
        simp only [serializeSlots, hrun, bindU_ok]
      have hSIr : ∀ k, k < rest.length → SingleInv st.registry cs ((i + 1) + k) ac := by
        intro k hk
        have h := hSI (k + 1) (Nat.succ_lt_succ hk)
        rwa [show i + (k + 1) = (i + 1) + k by omega] at h
      rcases ih (i + 1) { st with out := st.out ++ entityTokens st.registry ac cs i e }
          hSIr with ⟨hwf2, hrun2⟩ | ⟨hbad2, hrun2⟩ | ⟨hbad2, hrun2⟩
      · left
        constructor
        · intro k hk
          cases k with
          | zero => exact hwf
          | succ k2 =>
            have h := hwf2 k2 (Nat.lt_of_succ_lt_succ hk)
            rwa [show (i + 1) + k2 = i + (k2 + 1) by omega] at h
        · rw [hstep, hrun2]
          simp [slotsTokens, List.append_assoc]
      · right; left
        exact ⟨hbad2, by rw [hstep]; exact hrun2⟩
      · right; right
        exact ⟨hbad2, by rw [hstep]; exact hrun2⟩
    · right; left
      refine ⟨hbad, ?_⟩
      simp only [serializeSlots]
      rw [bindU_fst_error _ _ _ hrun]
    · right; right
      refine ⟨hbad, ?_⟩
      simp only [serializeSlots]
      rw [bindU_fst_error _ _ _ hrun]

theorem serializeChunks_tri {ε : Type} (fault : List Token → Token → Option ε)
    (hNF : NoFault fault) (ac : List (ComponentTypeId × ComponentMeta))
    (chunks : List ComponentStorage) (st : SerState)
    (hSI : ∀ c ∈ chunks, ChunkSingle st.registry c ac) :
    ((∀ c ∈ chunks, ChunkWF st.registry c ac) ∧
      serializeChunks fault ac chunks st =
        (Except.ok (), { st with out := st.out ++ chunksTokens st.registry ac chunks })) ∨
    ((∃ c ∈ chunks, CompsBadCol c ac) ∧
      (serializeChunks fault ac chunks st).1 =
        Except.error (Failure.panic unwrapColumnMsg)) ∨
    ((∃ c ∈ chunks, CompsBadReg st.registry c ac) ∧
      (serializeChunks fault ac chunks st).1 =
        Except.error (Failure.panic unwrapRegistrationMsg)) := by
  induction chunks generalizing st with
  | nil =>
    left
    refine ⟨fun c hc => absurd hc (List.not_mem_nil c), ?_⟩
    simp [serializeChunks, chunksTokens]
  | cons c rest ih =>
    have hSI0 : ∀ k, k < c.entities.length → SingleInv st.registry c (0 + k) ac := by
      intro k hk
      rw [Nat.zero_add]
      exact hSI c (List.mem_cons_self _ _) k hk
    rcases serializeSlots_tri fault hNF ac c c.entities 0 st hSI0 with
      ⟨hwf, hrun⟩ | ⟨hbad, hrun⟩ | ⟨hbad, hrun⟩
    · have hstep : serializeChunks fault ac (c :: rest) st =
          serializeChunks fault ac rest
            { st with out := st.out ++ slotsTokens st.registry ac c 0 c.entities } := by
        simp only [serializeChunks, hrun, bindU_ok]
      have hSIr : ∀ c2 ∈ rest, ChunkSingle st.registry c2 ac :=
        fun c2 hc2 => hSI c2 (List.mem_cons_of_mem _ hc2)
      rcases ih { st with out := st.out ++ slotsTokens st.registry ac c 0 c.entities }
          hSIr with ⟨hwf2, hrun2⟩ | ⟨hbad2, hrun2⟩ | ⟨hbad2, hrun2⟩
      · left
        constructor
        · intro c2 hc2
          rcases List.mem_cons.mp hc2 with hc2q | hc2r
          · subst hc2q
            intro k hk
            have h := hwf k hk
            rwa [Nat.zero_add] at h
          · exact hwf2 c2 hc2r
        · rw [hstep, hrun2]
          simp [chunksTokens, List.append_assoc]
      · right; left
        obtain ⟨c2, hc2, hbc⟩ := hbad2
        exact ⟨⟨c2, List.mem_cons_of_mem _ hc2, hbc⟩, by rw [hstep]; exact hrun2⟩
      · right; right
        obtain ⟨c2, hc2, hbc⟩ := hbad2
        exact ⟨⟨c2, List.mem_cons_of_mem _ hc2, hbc⟩, by rw [hstep]; exact hrun2⟩
    · right; left
      refine ⟨⟨c, List.mem_cons_self _ _, hbad⟩, ?_⟩
      simp only [serializeChunks]
      rw [bindU_fst_error _ _ _ hrun]
    · right; right
      refine ⟨⟨c, List.mem_cons_self _ _, hbad⟩, ?_⟩
      simp only [serializeChunks]
      rw [bindU_fst_error _ _ _ hrun]

theorem serializeChunksets_tri {ε : Type} (fault : List Token → Token → Option ε)
    (hNF : NoFault fault) (ac : List (ComponentTypeId × ComponentMeta))
    (sets : List Chunkset) (st : SerState)
    (hSI : ∀ ck ∈ sets, ∀ c ∈ ck.occupied, ChunkSingle st.registry c ac) :
    ((∀ ck ∈ sets, ∀ c ∈ ck.occupied, ChunkWF st.registry c ac) ∧
      serializeChunksets fault ac sets st =
        (Except.ok (), { st with out := st.out ++
          (sets.flatMap (fun ck => chunksTokens st.registry ac ck.occupied)) })) ∨
    ((∃ ck ∈ sets, ∃ c ∈ ck.occupied, CompsBadCol c ac) ∧
      (serializeChunksets fault ac sets st).1 =
        Except.error (Failure.panic unwrapColumnMsg)) ∨
    ((∃ ck ∈ sets, ∃ c ∈ ck.occupied, CompsBadReg st.registry c ac) ∧
      (serializeChunksets fault ac sets st).1 =
        Except.error (Failure.panic unwrapRegistrationMsg)) := by
  induction sets generalizing st with
  | nil =>
    left
    refine ⟨fun ck hck => absurd hck (List.not_mem_nil ck), ?_⟩
    simp [serializeChunksets]
  | cons ck rest ih =>
    have hSI0 : ∀ c ∈ ck.occupied, ChunkSingle st.registry c ac :=
      fun c hc => hSI ck (List.mem_cons_self _ _) c hc
    rcases serializeChunks_tri fault hNF ac ck.occupied st hSI0 with
      ⟨hwf, hrun⟩ | ⟨hbad, hrun⟩ | ⟨hbad, hrun⟩
    · have hstep : serializeChunksets fault ac (ck :: rest) st =
          serializeChunksets fault ac rest
            { st with out := st.out ++ chunksTokens st.registry ac ck.occupied } := by
        simp only [serializeChunksets, hrun, bindU_ok]
      have hSIr : ∀ ck2 ∈ rest, ∀ c ∈ ck2.occupied, ChunkSingle st.registry c ac :=
        fun ck2 hck2 => hSI ck2 (List.mem_cons_of_mem _ hck2)
      rcases ih { st with out := st.out ++ chunksTokens st.registry ac ck.occupied }
          hSIr with ⟨hwf2, hrun2⟩ | ⟨hbad2, hrun2⟩ | ⟨hbad2, hrun2⟩
      · left
        constructor
        · intro ck2 hck2
          rcases List.mem_cons.mp hck2 with hq | hr
          · subst hq
            intro c hc k hk
            exact hwf c hc k hk
          · exact hwf2 ck2 hr
        · rw [hstep, hrun2]
          simp [List.append_assoc]
      · right; left
        obtain ⟨ck2, hck2, hbc⟩ := hbad2
        exact ⟨⟨ck2, List.mem_cons_of_mem _ hck2, hbc⟩, by rw [hstep]; exact hrun2⟩
      · right; right
        obtain ⟨ck2, hck2, hbc⟩ := hbad2
        exact ⟨⟨ck2, List.mem_cons_of_mem _ hck2, hbc⟩, by rw [hstep]; exact hrun2⟩
    · right; left
      refine ⟨⟨ck, List.mem_cons_self _ _, hbad⟩, ?_⟩
      simp only [serializeChunksets]
      rw [bindU_fst_error _ _ _ hrun]
    · right; right
      refine ⟨⟨ck, List.mem_cons_self _ _, hbad⟩, ?_⟩
      simp only [serializeChunksets]
      rw [bindU_fst_error _ _ _ hrun]

theorem serializeArchetypes_tri {ε : Type} (fault : List Token → Token → Option ε)
    (hNF : NoFault fault) (archs : List Archetype) (st : SerState)
    (hSI : ∀ a ∈ archs, ∀ ck ∈ a.chunksets, ∀ c ∈ ck.occupied,
      ChunkSingle st.registry c a.description.components) :
    ((∀ a ∈ archs, ∀ ck ∈ a.chunksets, ∀ c ∈ ck.occupied,
        ChunkWF st.registry c a.description.components) ∧
      serializeArchetypes fault archs st =
        (Except.ok (), { st with out := st.out ++
          (archs.flatMap (archetypeTokens st.registry)) })) ∨
    ((∃ a ∈ archs, ∃ ck ∈ a.chunksets, ∃ c ∈ ck.occupied,
        CompsBadCol c a.description.components) ∧
      (serializeArchetypes fault archs st).1 =
        Except.error (Failure.panic unwrapColumnMsg)) ∨
    ((∃ a ∈ archs, ∃ ck ∈ a.chunksets, ∃ c ∈ ck.occupied,
        CompsBadReg st.registry c a.description.components) ∧
      (serializeArchetypes fault archs st).1 =
        Except.error (Failure.panic unwrapRegistrationMsg)) := by
  induction archs generalizing st with
  | nil =>
    left
    refine ⟨fun a ha => absurd ha (List.not_mem_nil a), ?_⟩
    simp [serializeArchetypes]
  | cons a rest ih =>
    have hSI0 : ∀ ck ∈ a.chunksets, ∀ c ∈ ck.occupied,
        ChunkSingle st.registry c a.description.components :=
      fun ck hck => hSI a (List.mem_cons_self _ _) ck hck
    rcases serializeChunksets_tri fault hNF a.description.components a.chunksets st
        hSI0 with ⟨hwf, hrun⟩ | ⟨hbad, hrun⟩ | ⟨hbad, hrun⟩
    · have hstep : serializeArchetypes fault (a :: rest) st =
          serializeArchetypes fault rest
            { st with out := st.out ++ archetypeTokens st.registry a } := by
        simp only [serializeArchetypes, hrun, bindU_ok, archetypeTokens]
      have hSIr : ∀ a2 ∈ rest, ∀ ck ∈ a2.chunksets, ∀ c ∈ ck.occupied,
          ChunkSingle st.registry c a2.description.components :=
        fun a2 ha2 => hSI a2 (List.mem_cons_of_mem _ ha2)
      rcases ih { st with out := st.out ++ archetypeTokens st.registry a }
          hSIr with ⟨hwf2, hrun2⟩ | ⟨hbad2, hrun2⟩ | ⟨hbad2, hrun2⟩
      · left
        constructor
        · intro a2 ha2
          rcases List.mem_cons.mp ha2 with hq | hr
          · subst hq
            exact hwf
          · exact hwf2 a2 hr
        · rw [hstep, hrun2]
          simp [List.append_assoc]
      · right; left
        obtain ⟨a2, ha2, hbc⟩ := hbad2
        exact ⟨⟨a2, List.mem_cons_of_mem _ ha2, hbc⟩, by rw [hstep]; exact hrun2⟩
      · right; right
        obtain ⟨a2, ha2, hbc⟩ := hbad2
        exact ⟨⟨a2, List.mem_cons_of_mem _ ha2, hbc⟩, by rw [hstep]; exact hrun2⟩
    · right; left
      refine ⟨⟨a, List.mem_cons_self _ _, hbad⟩, ?_⟩
      simp only [serializeArchetypes]
      rw [bindU_fst_error _ _ _ hrun]
    · right; right
      refine ⟨⟨a, List.mem_cons_self _ _, hbad⟩, ?_⟩
      simp only [serializeArchetypes]
      rw [bindU_fst_error _ _ _ hrun]

theorem serializableScene_tri {ε : Type} (fault : List Token → Token → Option ε)
    (hNF : NoFault fault) (st : SerState)
    (hSingle : SceneSingle st.registry st.scene) :
    (SceneWF st.registry st.scene ∧
      SerializableScene.serialize fault st =
        (Except.ok (),
          { st with out := st.out ++ sceneTokens st.scene st.registry })) ∨
    (SceneBadCol st.scene ∧
      (SerializableScene.serialize fault st).1 =
        Except.error (Failure.panic unwrapColumnMsg)) ∨
    (SceneBadReg st.registry st.scene ∧
      (SerializableScene.serialize fault st).1 =
        Except.error (Failure.panic unwrapRegistrationMsg)) := by
  set hint : Token := Token.seqBegin (some st.scene.world.iterEntitiesCount) with hhint
  set st1 : SerState := { st with out := st.out ++ [hint] } with hst1
  have hstep : SerializableScene.serialize fault st =
      bindU (serializeArchetypes fault st.scene.world.storage.archetypes st1)
        (fun st2 => emitToken fault Token.seqEnd st2) := by
    simp only [SerializableScene.serialize, emitToken_noFault hNF, bindU_ok, hst1, hhint]
  have hSI1 : ∀ a ∈ st.scene.world.storage.archetypes, ∀ ck ∈ a.chunksets,
      ∀ c ∈ ck.occupied, ChunkSingle st1.registry c a.description.components :=
    hSingle
  rcases serializeArchetypes_tri fault hNF st.scene.world.storage.archetypes st1
      hSI1 with ⟨hwf, hrun⟩ | ⟨hbad, hrun⟩ | ⟨hbad, hrun⟩
  · left
    refine ⟨hwf, ?_⟩
    rw [hstep, hrun, bindU_ok, emitToken_noFault hNF]
    simp [hst1, hhint, sceneTokens, List.append_assoc]
  · right; left
    exact ⟨hbad, by rw [hstep, bindU_fst_error _ _ _ hrun]⟩
  · right; right
    exact ⟨hbad, by rw [hstep, bindU_fst_error _ _ _ hrun]⟩

/-! ## Soundness: frame preservation, verbatim sink errors, fault-free success -/

theorem faultFree_nil {ε : Type} (fault : List Token → Token → Option ε)
    (base : List Token) : FaultFree fault base [] := by
  simp [FaultFree]

theorem faultFree_single {ε : Type} (fault : List Token → Token → Option ε)
    (base : List Token) (t : Token) (h : fault base t = none) :
    FaultFree fault base [t] := by
  simp [FaultFree, h]

theorem faultFree_append {ε : Type} (fault : List Token → Token → Option ε)
    (base n1 n2 : List Token) (h1 : FaultFree fault base n1)
    (h2 : FaultFree fault (base ++ n1) n2) :
    FaultFree fault base (n1 ++ n2) := by
  induction n1 generalizing base with
  | nil =>
    simpa using h2
  | cons t rest ih =>
    obtain ⟨h1a, h1b⟩ := h1
    refine ⟨h1a, ih (base ++ [t]) h1b ?_⟩
    rw [List.append_assoc]
    simpa using h2

theorem soundRes_pure {ε : Type} (fault : List Token → Token → Option ε)
    (st : SerState) : SoundRes fault st (Except.ok (), st) := by
  refine ⟨rfl, rfl, ⟨[], by simp⟩, ?_, ?_⟩
  · intro e he
    exact absurd he (by simp)
  · intro u _
    exact ⟨[], by simp, faultFree_nil fault st.out⟩

theorem soundRes_panic {ε : Type} (fault : List Token → Token → Option ε)
    (st : SerState) (msg : String) :
    SoundRes fault st (Except.error (Failure.panic msg), st) := by
  refine ⟨rfl, rfl, ⟨[], by simp⟩, ?_, ?_⟩
  · intro e he
    exact absurd he (by simp)
  · intro u hu
    exact absurd hu (by simp)

theorem soundRes_emit {ε : Type} (fault : List Token → Token → Option ε)
    (t : Token) (st : SerState) : SoundRes fault st (emitToken fault t st) := by
  cases hf : fault st.out t with
  | some e =>
    have hrun : emitToken fault t st = (Except.error (Failure.sink e), st) := by
      simp [emitToken, hf]
    rw [hrun]
    refine ⟨rfl, rfl, ⟨[], by simp⟩, ?_, ?_⟩
    · intro e2 he
      obtain rfl : e = e2 := by
        have h := he
        injection h with h2
        injection h2
      exact ⟨st.out, t, hf⟩
    · intro u hu
      exact absurd hu (by simp)
  | none =>
    have hrun : emitToken fault t st =
        (Except.ok (), { st with out := st.out ++ [t] }) := by
      simp [emitToken, hf]
    rw [hrun]
    refine ⟨rfl, rfl, ⟨[t], rfl⟩, ?_, ?_⟩
    · intro e2 he
      exact absurd he (by simp)
    · intro u _
      exact ⟨[t], rfl, faultFree_single fault st.out t hf⟩

theorem soundRes_bindU {ε : Type} {fault : List Token → Token → Option ε}
    {st : SerState} {x : Except (Failure ε) Unit × SerState} {g : SerM ε Unit}
    (hx : SoundRes fault st x) (hg : ∀ s, SoundRes fault s (g s)) :
    SoundRes fault st (bindU x g) := by
  obtain ⟨x1, x2⟩ := x
  obtain ⟨hsc, hreg, ⟨n1, hout⟩, hsink, hok⟩ := hx
  cases x1 with
  | error e =>
    rw [bindU_error]
    refine ⟨hsc, hreg, ⟨n1, hout⟩, hsink, ?_⟩
    intro u hu
    exact absurd hu (by simp)
  | ok u =>
    rw [bindU_ok]
    obtain ⟨hsc2, hreg2, ⟨n2, hout2⟩, hsink2, hok2⟩ := hg x2
    refine ⟨hsc2.trans hsc, hreg2.trans hreg,
      ⟨n1 ++ n2, by rw [hout2, hout, List.append_assoc]⟩, hsink2, ?_⟩
    intro u2 hu2
    obtain ⟨n2b, hout2b, hff2⟩ := hok2 u2 hu2
    obtain ⟨n1b, hout1b, hff1⟩ := hok u rfl
    refine ⟨n1b ++ n2b, ?_, ?_⟩
    · rw [hout2b, hout1b, List.append_assoc]
    · refine faultFree_append fault st.out n1b n2b hff1 ?_
      rwa [← hout1b]

theorem sound_entityComponent {ε : Type} (fault : List Token → Token → Option ε)
    (ec : EntityComponent) : Sound fault (EntityComponent.serialize fault ec) := by
  intro st
  cases hv : ec.component_registration.individual_comp_serialize_fn
      ec.component_resource_set ec.index with
  | nil =>
    have hrun : EntityComponent.serialize fault ec st =
        (Except.error (Failure.panic unwrapResultMsg), st) := by
      unfold EntityComponent.serialize
      rw [hv]
      rfl
    rw [hrun]
    exact soundRes_panic fault st unwrapResultMsg
  | cons v rest =>
    cases rest with
    | nil =>
      cases hf : fault st.out (Token.value v) with
      | some e =>
        have hrun : EntityComponent.serialize fault ec st =
            (Except.error (Failure.sink e), st) := by
          unfold EntityComponent.serialize
          rw [hv]
          simp [ecCallbackLoop, serializeErased, hf]
        rw [hrun]
        refine ⟨rfl, rfl, ⟨[], by simp⟩, ?_, ?_⟩
        · intro e2 he
          obtain rfl : e = e2 := by
            have h := he
            injection h with h2
            injection h2
          exact ⟨st.out, Token.value v, hf⟩
        · intro u hu
          exact absurd hu (by simp)
      | none =>
        have hrun : EntityComponent.serialize fault ec st =
            (Except.ok (), { st with out := st.out ++ [Token.value v] }) := by
          unfold EntityComponent.serialize
          rw [hv]
          simp [ecCallbackLoop, serializeErased, hf]
        rw [hrun]
        refine ⟨rfl, rfl, ⟨[Token.value v], rfl⟩, ?_, ?_⟩
        · intro e2 he
          exact absurd he (by simp)
        · intro u _
          exact ⟨[Token.value v], rfl, faultFree_single fault st.out _ hf⟩
    | cons w rest2 =>
      have hrun : EntityComponent.serialize fault ec st =
          (Except.error (Failure.panic unwrapTakenMsg), st) := by
        unfold EntityComponent.serialize
        rw [hv]
        rfl
      rw [hrun]
      exact soundRes_panic fault st unwrapTakenMsg

theorem sound_serializeComponents {ε : Type} (fault : List Token → Token → Option ε)
    (idx : Nat) (cs : ComponentStorage)
    (comps : List (ComponentTypeId × ComponentMeta)) :
    Sound fault (serializeComponents fault idx cs comps) := by
  induction comps with
  | nil =>
    intro st
    have hrun : serializeComponents fault idx cs [] st = (Except.ok (), st) := rfl
    rw [hrun]
    exact soundRes_pure fault st
  | cons q rest ih =>
    obtain ⟨t, m⟩ := q
    intro st
    cases hcol : cs.components t with
    | none =>
      have hrun : serializeComponents fault idx cs ((t, m) :: rest) st =
          (Except.error (Failure.panic unwrapColumnMsg), st) := by
        simp [serializeComponents, hcol]
      rw [hrun]
      exact soundRes_panic fault st unwrapColumnMsg
    | some set =>
      cases hreg : st.registry.get t with
      | none =>
        have hrun : serializeComponents fault idx cs ((t, m) :: rest) st =
            (Except.error (Failure.panic unwrapRegistrationMsg), st) := by
          simp [serializeComponents, hcol, hreg]
        rw [hrun]
        exact soundRes_panic fault st unwrapRegistrationMsg
      | some reg =>
        have hrun : serializeComponents fault idx cs ((t, m) :: rest) st =
            bindU
              (EntityComponent.serialize fault
                { index := idx, component_resource_set := set,
                  component_registration := reg } st)
              (fun st1 => serializeComponents fault idx cs rest st1) := by
          simp [serializeComponents, hcol, hreg]
        rw [hrun]
        exact soundRes_bindU (sound_entityComponent fault _ st) (fun s => ih s)

theorem sound_entityComponents {ε : Type} (fault : List Token → Token → Option ε)
    (e : EntityComponents) : Sound fault (EntityComponents.serialize fault e) := by
  intro st
  exact soundRes_bindU (soundRes_emit fault _ st)
    (fun s1 => soundRes_bindU
      (sound_serializeComponents fault e.index e.component_storage
        e.archetype_components s1)
      (fun s2 => soundRes_emit fault Token.seqEnd s2))

theorem sound_worldEntity {ε : Type} (fault : List Token → Token → Option ε)
    (we : WorldEntity) : Sound fault (WorldEntity.serialize fault we) := by
  intro st
  exact soundRes_bindU (soundRes_emit fault _ st)
    (fun s1 => soundRes_bindU (soundRes_emit fault _ s1)
      (fun s2 => soundRes_bindU (soundRes_emit fault _ s2)
        (fun s3 => soundRes_bindU (soundRes_emit fault _ s3)
          (fun s4 => soundRes_bindU (sound_entityComponents fault _ s4)
            (fun s5 => soundRes_emit fault Token.structEnd s5)))))

theorem sound_serializeSlots {ε : Type} (fault : List Token → Token → Option ε)
    (ac : List (ComponentTypeId × ComponentMeta)) (cs : ComponentStorage)
    (es : List Entity) (i : Nat) :
    Sound fault (serializeSlots fault ac cs i es) := by
  induction es generalizing i with
  | nil =>
    intro st
    exact soundRes_pure fault st
  | cons e rest ih =>
    intro st
    exact soundRes_bindU (sound_worldEntity fault _ st) (fun s => ih (i + 1) s)

theorem sound_serializeChunks {ε : Type} (fault : List Token → Token → Option ε)
    (ac : List (ComponentTypeId × ComponentMeta))
    (chunks : List ComponentStorage) :
    Sound fault (serializeChunks fault ac chunks) := by
  induction chunks with
  | nil =>
    intro st
    exact soundRes_pure fault st
  | cons c rest ih =>
    intro st
    exact soundRes_bindU (sound_serializeSlots fault ac c c.entities 0 st)
      (fun s => ih s)

theorem sound_serializeChunksets {ε : Type} (fault : List Token → Token → Option ε)
    (ac : List (ComponentTypeId × ComponentMeta)) (sets : List Chunkset) :
    Sound fault (serializeChunksets fault ac sets) := by
  induction sets with
  | nil =>
    intro st
    exact soundRes_pure fault st
  | cons ck rest ih =>
    intro st
    exact soundRes_bindU (sound_serializeChunks fault ac ck.occupied st)
      (fun s => ih s)

theorem sound_serializeArchetypes {ε : Type} (fault : List Token → Token → Option ε)
    (archs : List Archetype) :
    Sound fault (serializeArchetypes fault archs) := by
  induction archs with
  | nil =>
    intro st
    exact soundRes_pure fault st
  | cons a rest ih =>
    intro st
    exact soundRes_bindU
      (sound_serializeChunksets fault a.description.components a.chunksets st)
      (fun s => ih s)

theorem sound_serializableScene {ε : Type} (fault : List Token → Token → Option ε) :
    Sound fault (SerializableScene.serialize fault) := by
  intro st
  exact soundRes_bindU (soundRes_emit fault _ st)
    (fun s1 => soundRes_bindU
      (sound_serializeArchetypes fault s1.scene.world.storage.archetypes s1)
      (fun s2 => soundRes_emit fault Token.seqEnd s2))

/-! ## Shape and counting lemmas about the expected token stream -/

theorem countRecords_append (a b : List Token) :
    countRecords (a ++ b) = countRecords a + countRecords b := by
  simp [countRecords, List.countP_append]

theorem recordIds_append (a b : List Token) :
    recordIds (a ++ b) = recordIds a ++ recordIds b := by
  simp [recordIds, List.filterMap_append]

theorem countRecords_componentTokens (registry : ComponentRegistry)
    (cs : ComponentStorage) (idx : Nat)
    (comps : List (ComponentTypeId × ComponentMeta)) :
    countRecords (componentTokens registry cs idx comps) = 0 := by
  unfold countRecords
  rw [List.countP_eq_zero]
  intro t ht
  simp only [componentTokens, List.mem_flatMap, List.mem_map] at ht
  obtain ⟨p, hp, v, hv, rfl⟩ := ht
  simp [isRecordStart]

theorem recordIds_componentTokens (registry : ComponentRegistry)
    (cs : ComponentStorage) (idx : Nat)
    (comps : List (ComponentTypeId × ComponentMeta)) :
    recordIds (componentTokens registry cs idx comps) = [] := by
  unfold recordIds
  rw [List.filterMap_eq_nil_iff]
  intro t ht
  simp only [componentTokens, List.mem_flatMap, List.mem_map] at ht
  obtain ⟨p, hp, v, hv, rfl⟩ := ht
  simp [idTokenVal]

theorem countRecords_entityTokens (registry : ComponentRegistry)
    (ac : List (ComponentTypeId × ComponentMeta)) (cs : ComponentStorage)
    (idx : Nat) (e : Entity) :
    countRecords (entityTokens registry ac cs idx e) = 1 := by
  unfold entityTokens
  rw [countRecords_append, countRecords_append]
  rw [countRecords_componentTokens]
  simp [countRecords, List.countP_cons, isRecordStart]

theorem recordIds_entityTokens (registry : ComponentRegistry)
    (ac : List (ComponentTypeId × ComponentMeta)) (cs : ComponentStorage)
    (idx : Nat) (e : Entity) :
    recordIds (entityTokens registry ac cs idx e) = [e.index] := by
  unfold entityTokens
  rw [recordIds_append, recordIds_append]
  rw [recordIds_componentTokens]
  simp [recordIds, List.filterMap_cons, idTokenVal]

theorem countRecords_slotsTokens (registry : ComponentRegistry)
    (ac : List (ComponentTypeId × ComponentMeta)) (cs : ComponentStorage)
    (i : Nat) (es : List Entity) :
    countRecords (slotsTokens registry ac cs i es) = es.length := by
  induction es generalizing i with
  | nil => rfl
  | cons e rest ih =>
    simp only [slotsTokens]
    rw [countRecords_append, countRecords_entityTokens, ih (i + 1)]
    simp [List.length_cons, Nat.add_comm]

theorem recordIds_slotsTokens (registry : ComponentRegistry)
    (ac : List (ComponentTypeId × ComponentMeta)) (cs : ComponentStorage)
    (i : Nat) (es : List Entity) :
    recordIds (slotsTokens registry ac cs i es) = es.map Entity.index := by
  induction es generalizing i with
  | nil => rfl
  | cons e rest ih =>
    simp only [slotsTokens]
    rw [recordIds_append, recordIds_entityTokens, ih (i + 1)]
    rfl

theorem countRecords_chunksTokens (registry : ComponentRegistry)
    (ac : List (ComponentTypeId × ComponentMeta))
    (chunks : List ComponentStorage) :
    countRecords (chunksTokens registry ac chunks) =
      (chunks.flatMap (fun c => c.entities)).length := by
  induction chunks with
  | nil => rfl
  | cons c rest ih =>
    simp only [chunksTokens, List.flatMap_cons]
    rw [countRecords_append]
    simp only [chunksTokens] at ih
    rw [countRecords_slotsTokens, ih, List.length_append]

theorem recordIds_chunksTokens (registry : ComponentRegistry)
    (ac : List (ComponentTypeId × ComponentMeta))
    (chunks : List ComponentStorage) :
    recordIds (chunksTokens registry ac chunks) =
      (chunks.flatMap (fun c => c.entities)).map Entity.index := by
  induction chunks with
  | nil => rfl
  | cons c rest ih =>
    simp only [chunksTokens, List.flatMap_cons]
    rw [recordIds_append]
    simp only [chunksTokens] at ih
    rw [recordIds_slotsTokens, ih, List.map_append]

theorem countRecords_archetypeTokens (registry : ComponentRegistry)
    (a : Archetype) :
    countRecords (archetypeTokens registry a) =
      (a.chunksets.flatMap (fun ck => ck.occupied.flatMap (fun c => c.entities))).length := by
  unfold archetypeTokens
  induction a.chunksets with
  | nil => rfl
  | cons ck rest ih =>
    simp only [List.flatMap_cons]
    rw [countRecords_append, countRecords_chunksTokens, ih, List.length_append]

theorem recordIds_archetypeTokens (registry : ComponentRegistry) (a : Archetype) :
    recordIds (archetypeTokens registry a) =
      (a.chunksets.flatMap (fun ck => ck.occupied.flatMap (fun c => c.entities))).map
        Entity.index := by
  unfold archetypeTokens
  induction a.chunksets with
  | nil => rfl
  | cons ck rest ih =>
    simp only [List.flatMap_cons]
    rw [recordIds_append, recordIds_chunksTokens, ih, List.map_append]

theorem flatMap_filter_nonempty (l : List ComponentStorage) :
    (l.filter (fun c => !c.entities.isEmpty)).flatMap (fun c => c.entities) =
      l.flatMap (fun c => c.entities) := by
  induction l with
  | nil => rfl
  | cons c rest ih =>
    cases hc : c.entities.isEmpty with
    | true =>
      have hnil : c.entities = [] := by
        rwa [List.isEmpty_iff] at hc
      simp [List.filter, hc, hnil, ih]
    | false =>
      simp [List.filter, hc, ih]

theorem occupied_flatMap_entities (ck : Chunkset) :
    ck.occupied.flatMap (fun c => c.entities) =
      ck.chunks.flatMap (fun c => c.entities) :=
  flatMap_filter_nonempty ck.chunks

/-- A chunk returned by `occupied()` holds at least one live entity. -/
theorem occupied_ne_nil {ck : Chunkset} {c : ComponentStorage}
    (hc : c ∈ ck.occupied) : c.entities ≠ [] := by
  unfold Chunkset.occupied at hc
  have h := List.of_mem_filter hc
  intro hnil
  rw [List.isEmpty_iff.mpr hnil] at h
  simp at h

theorem traversalEntities_eq_iterEntities (sc : Scene) :
    traversalEntities sc = sc.world.iterEntities := by
  have hfun : (fun (ck : Chunkset) => ck.occupied.flatMap (fun c => c.entities)) =
      (fun (ck : Chunkset) => ck.chunks.flatMap (fun c => c.entities)) :=
    funext (fun ck => occupied_flatMap_entities ck)
  simp only [traversalEntities, World.iterEntities, hfun]

theorem countRecords_sceneTokens (sc : Scene) (registry : ComponentRegistry) :
    countRecords (sceneTokens sc registry) = sc.world.iterEntitiesCount := by
  have hsplit : sceneTokens sc registry =
      [Token.seqBegin (some sc.world.iterEntitiesCount)] ++
        sc.world.storage.archetypes.flatMap (archetypeTokens registry) ++
        [Token.seqEnd] := by
    simp [sceneTokens]
  rw [hsplit, countRecords_append, countRecords_append]
  have hmid : countRecords
      (sc.world.storage.archetypes.flatMap (archetypeTokens registry)) =
      (traversalEntities sc).length := by
    unfold traversalEntities
    induction sc.world.storage.archetypes with
    | nil => rfl
    | cons a rest ih =>
      simp only [List.flatMap_cons]
      rw [countRecords_append, countRecords_archetypeTokens, ih, List.length_append]
  rw [hmid, traversalEntities_eq_iterEntities]
  simp [countRecords, isRecordStart, World.iterEntitiesCount]

theorem recordIds_sceneTokens (sc : Scene) (registry : ComponentRegistry) :
    recordIds (sceneTokens sc registry) = sc.world.iterEntities.map Entity.index := by
  have hsplit : sceneTokens sc registry =
      [Token.seqBegin (some sc.world.iterEntitiesCount)] ++
        sc.world.storage.archetypes.flatMap (archetypeTokens registry) ++
        [Token.seqEnd] := by
    simp [sceneTokens]
  rw [hsplit, recordIds_append, recordIds_append]
  have hmid : recordIds
      (sc.world.storage.archetypes.flatMap (archetypeTokens registry)) =
      (traversalEntities sc).map Entity.index := by
    unfold traversalEntities
    induction sc.world.storage.archetypes with
    | nil => rfl
    | cons a rest ih =>
      simp only [List.flatMap_cons]
      rw [recordIds_append, recordIds_archetypeTokens, ih, List.map_append]
  rw [hmid, traversalEntities_eq_iterEntities]
  simp [recordIds, idTokenVal]

theorem componentTokens_of_regWF (registry : ComponentRegistry)
    (cs : ComponentStorage) (idx : Nat)
    (comps : List (ComponentTypeId × ComponentMeta))
    (h : RegWF registry cs idx comps) :
    componentTokens registry cs idx comps =
      comps.map (fun p => Token.value (compValue registry cs idx p.1)) := by
  induction comps with
  | nil => rfl
  | cons q rest ih =>
    obtain ⟨set, reg, hcol, hreg, hlen⟩ := h q (List.mem_cons_self _ _)
    obtain ⟨v, hv⟩ := List.length_eq_one.mp hlen
    have hcv : compValues registry cs idx q.1 = [v] := by
      simp [compValues, hcol, hreg, hv]
    have hrest := ih (fun p hp => h p (List.mem_cons_of_mem _ hp))
    have hhead : compValue registry cs idx q.1 = v := by
      simp [compValue, hcv]
    calc componentTokens registry cs idx (q :: rest)
        = (compValues registry cs idx q.1).map Token.value ++
            componentTokens registry cs idx rest := by
          simp [componentTokens]
      _ = Token.value v :: componentTokens registry cs idx rest := by
          rw [hcv]
          rfl
      _ = Token.value (compValue registry cs idx q.1) ::
            rest.map (fun p => Token.value (compValue registry cs idx p.1)) := by
          rw [hhead, hrest]
      _ = (q :: rest).map (fun p => Token.value (compValue registry cs idx p.1)) := rfl

theorem componentTokens_length_of_regWF (registry : ComponentRegistry)
    (cs : ComponentStorage) (idx : Nat)
    (comps : List (ComponentTypeId × ComponentMeta))
    (h : RegWF registry cs idx comps) :
    (componentTokens registry cs idx comps).length = comps.length := by
  rw [componentTokens_of_regWF registry cs idx comps h, List.length_map]

/-! ## Derived well-formedness implications and the success corollary -/

theorem regWF_singleInv {registry : ComponentRegistry} {cs : ComponentStorage}
    {idx : Nat} {comps : List (ComponentTypeId × ComponentMeta)}
    (h : RegWF registry cs idx comps) : SingleInv registry cs idx comps := by
  intro p hp set reg hcol hreg
  obtain ⟨set2, reg2, hcol2, hreg2, hlen⟩ := h p hp
  rw [hcol] at hcol2
  rw [hreg] at hreg2
  injection hcol2 with h1
  injection hreg2 with h2
  subst h1
  subst h2
  exact hlen

theorem sceneWF_single {registry : ComponentRegistry} {sc : Scene}
    (h : SceneWF registry sc) : SceneSingle registry sc :=
  fun a ha ck hck c hc k hk => regWF_singleInv (h a ha ck hck c hc k hk)

/-- Under full well-formedness and a non-faulting sink, the pass succeeds and
writes exactly the expected token stream. -/
theorem serialize_ok_of_sceneWF {ε : Type} (fault : List Token → Token → Option ε)
    (hNF : NoFault fault) (st : SerState) (hWF : SceneWF st.registry st.scene) :
    SerializableScene.serialize fault st =
      (Except.ok (), { st with out := st.out ++ sceneTokens st.scene st.registry }) := by
  rcases serializableScene_tri fault hNF st (sceneWF_single hWF) with
    ⟨_, hrun⟩ | ⟨hbad, _⟩ | ⟨hbad, _⟩
  · exact hrun
  · obtain ⟨a, ha, ck, hck, c, hc, p, hp, hcol⟩ := hbad
    have hne := occupied_ne_nil hc
    have hlen : 0 < c.entities.length := List.length_pos.mpr hne
    obtain ⟨set, reg, hcol2, _, _⟩ := hWF a ha ck hck c hc 0 hlen p hp
    rw [hcol] at hcol2
    exact absurd hcol2 (by simp)
  · obtain ⟨a, ha, ck, hck, c, hc, p, hp, _, hreg⟩ := hbad
    have hne := occupied_ne_nil hc
    have hlen : 0 < c.entities.length := List.length_pos.mpr hne
    obtain ⟨set, reg, _, hreg2, _⟩ := hWF a ha ck hck c hc 0 hlen p hp
    rw [hreg] at hreg2
    exact absurd hreg2 (by simp)

/-! ## Well-formedness of the concrete fixtures -/

theorem chunkA_regWF (k : Nat) : RegWF exampleRegistry chunkA k [(1, 0)] := by
  intro p hp
  fin_cases hp
  exact ⟨⟨[10, 11]⟩, posRegistration, rfl, rfl, rfl⟩

theorem chunkB_regWF (k : Nat) : RegWF exampleRegistry chunkB k [(1, 0), (2, 0)] := by
  intro p hp
  fin_cases hp
  · exact ⟨⟨[12]⟩, posRegistration, rfl, rfl, rfl⟩
  · exact ⟨⟨[20]⟩, velRegistration, rfl, rfl, rfl⟩

theorem exampleWF : SceneWF exampleRegistry exampleScene := by
  intro a ha ck hck c hc
  fin_cases ha
  · fin_cases hck
    have hocc : Chunkset.occupied ⟨[chunkA]⟩ = [chunkA] := rfl
    rw [hocc] at hc
    fin_cases hc
    intro k _
    exact chunkA_regWF k
  · fin_cases hck
    have hocc : Chunkset.occupied ⟨[chunkB]⟩ = [chunkB] := rfl
    rw [hocc] at hc
    fin_cases hc
    intro k _
    exact chunkB_regWF k

theorem posOnly_sceneSingle : SceneSingle posOnlyRegistry exampleScene := by
  intro a ha ck hck c hc k _ p hp set reg hcol hreg
  fin_cases ha
  · fin_cases hp
    have h2 : some posRegistration = some reg := hreg
    injection h2 with h3
    subst h3
    rfl
  · fin_cases hp
    · have h2 : some posRegistration = some reg := hreg
      injection h2 with h3
      subst h3
      rfl
    · exact Option.noConfusion hreg

theorem example_colsOK : SceneColsOK exampleScene := by
  intro a ha ck hck c hc p hp
  fin_cases ha
  · fin_cases hck
    have hocc : Chunkset.occupied ⟨[chunkA]⟩ = [chunkA] := rfl
    rw [hocc] at hc
    fin_cases hc
    fin_cases hp
    exact ⟨⟨[10, 11]⟩, rfl⟩
  · fin_cases hck
    have hocc : Chunkset.occupied ⟨[chunkB]⟩ = [chunkB] := rfl
    rw [hocc] at hc
    fin_cases hc
    fin_cases hp
    · exact ⟨⟨[12]⟩, rfl⟩
    · exact ⟨⟨[20]⟩, rfl⟩

theorem posOnly_badReg : SceneBadReg posOnlyRegistry exampleScene := by
  refine ⟨archB, by decide, ⟨[chunkB]⟩, by decide, chunkB, by decide, (2, 0), by decide,
    ⟨⟨[20]⟩, rfl⟩, rfl⟩

theorem noVelCol_sceneSingle : SceneSingle exampleRegistry sceneNoVelCol := by
  intro a ha ck hck c hc k _ p hp set reg hcol hreg
  fin_cases ha
  fin_cases hck
  have hocc : Chunkset.occupied ⟨[chunkNoVelCol]⟩ = [chunkNoVelCol] := rfl
  rw [hocc] at hc
  fin_cases hc
  fin_cases hp
  · have h2 : some posRegistration = some reg := hreg
    injection h2 with h3
    subst h3
    rfl
  · exact Option.noConfusion hcol

theorem noVelCol_regsOK : SceneRegsOK exampleRegistry sceneNoVelCol := by
  intro a ha ck hck c hc p hp
  fin_cases ha
  fin_cases hp
  · exact ⟨posRegistration, rfl⟩
  · exact ⟨velRegistration, rfl⟩

theorem noVelCol_badCol : SceneBadCol sceneNoVelCol := by
  refine ⟨archNoVelCol, by decide, ⟨[chunkNoVelCol]⟩, by decide, chunkNoVelCol,
    by decide, (2, 0), by decide, rfl⟩

/-- After filtering key `k` away, nothing counts as key `k`. -/
theorem countP_key_filter_ne (l : List (ComponentTypeId × ComponentRegistration))
    (k : ComponentTypeId) :
    (l.filter (fun p => p.1 != k)).countP (fun p => p.1 == k) = 0 := by
  rw [List.countP_eq_zero]
  intro p hp
  have h := List.of_mem_filter hp
  simp only [bne_iff_ne, ne_eq] at h
  simp [h]

/-! ## Claim theorems and witnesses -/

/-- **C1** (completeness): for a scene whose registry covers every declared
component type of every occupied chunk (each registration invoking the
callback once) and a non-faulting sink, `SerializableScene::serialize`
succeeds and writes exactly `sceneTokens`; that stream holds exactly
`iter_entities().count()` entity records — the count used as the sequence
length hint — and its `id` stream is exactly the index of every live entity
of the storage traversal, once per live entity, in traversal order. -/
theorem c1_completeness {ε : Type} (fault : List Token → Token → Option ε)
    (st : SerState) (hNF : NoFault fault)
    (hWF : SceneWF st.registry st.scene) :
    SerializableScene.serialize fault st =
      (Except.ok (), { st with out := st.out ++ sceneTokens st.scene st.registry }) ∧
    countRecords (sceneTokens st.scene st.registry) =
      st.scene.world.iterEntitiesCount ∧
    recordIds (sceneTokens st.scene st.registry) =
      st.scene.world.iterEntities.map Entity.index ∧
    (sceneTokens st.scene st.registry).head? =
      some (Token.seqBegin (some st.scene.world.iterEntitiesCount)) := by
  exact ⟨serialize_ok_of_sceneWF fault hNF st hWF,
    countRecords_sceneTokens _ _, recordIds_sceneTokens _ _, rfl⟩

theorem c1_completeness_witness :
    SceneWF exampleState.registry exampleState.scene ∧
    countRecords (sceneTokens exampleState.scene exampleState.registry) =
      exampleState.scene.world.iterEntitiesCount ∧
    exampleState.scene.world.iterEntitiesCount = 3 :=
  ⟨exampleWF,
    (c1_completeness noFaultSink exampleState (fun _ _ => rfl) exampleWF).2.1,
    rfl⟩

/-- **C2** (per-entity shape): under the same well-formedness, the pass writes
exactly `sceneTokens`, and every entity record of that stream is a struct
named "Entity" declaring exactly two fields, `id` first and `components`
second, whose `components` value is a sequence whose length hint and element
count both equal the number of component types declared by the archetype,
with one element per declared type in the archetype's declared order. -/
theorem c2_record_shape {ε : Type} (fault : List Token → Token → Option ε)
    (st : SerState) (hNF : NoFault fault)
    (hWF : SceneWF st.registry st.scene) :
    SerializableScene.serialize fault st =
      (Except.ok (), { st with out := st.out ++ sceneTokens st.scene st.registry }) ∧
    ∀ ac cs idx e, RegWF st.registry cs idx ac →
      entityTokens st.registry ac cs idx e =
        Token.structBegin "Entity" 2 :: Token.fieldKey "id" ::
          Token.natVal e.index :: Token.fieldKey "components" ::
          Token.seqBegin (some ac.length) ::
          (ac.map (fun p => Token.value (compValue st.registry cs idx p.1)) ++
            [Token.seqEnd, Token.structEnd]) ∧
      (componentTokens st.registry cs idx ac).length = ac.length := by
  refine ⟨serialize_ok_of_sceneWF fault hNF st hWF, ?_⟩
  intro ac cs idx e hr
  refine ⟨?_, componentTokens_length_of_regWF _ _ _ _ hr⟩
  have hct := componentTokens_of_regWF st.registry cs idx ac hr
  simp only [entityTokens, hct]
  simp

theorem c2_record_shape_witness :
    SceneWF exampleState.registry exampleState.scene ∧
    RegWF exampleState.registry chunkB 0 [(1, 0), (2, 0)] ∧
    (componentTokens exampleState.registry chunkB 0 [(1, 0), (2, 0)]).length = 2 :=
  ⟨exampleWF, chunkB_regWF 0,
    ((c2_record_shape noFaultSink exampleState (fun _ _ => rfl) exampleWF).2
      [(1, 0), (2, 0)] chunkB 0 ⟨2, 1⟩ (chunkB_regWF 0)).2⟩

/-- **C3** (identity preservation): under the same well-formedness the pass
writes exactly `sceneTokens`; in every entity record the token right after
the `id` field key is the scalar `entity.index()` — the entity's public index
as storage reports it, with no generation component — and the stream's
ordered list of `id` scalars equals the indices of the live entities. -/
theorem c3_identity_preservation {ε : Type} (fault : List Token → Token → Option ε)
    (st : SerState) (hNF : NoFault fault)
    (hWF : SceneWF st.registry st.scene) :
    SerializableScene.serialize fault st =
      (Except.ok (), { st with out := st.out ++ sceneTokens st.scene st.registry }) ∧
    (∀ ac cs idx e,
      (entityTokens st.registry ac cs idx e)[1]? = some (Token.fieldKey "id") ∧
      (entityTokens st.registry ac cs idx e)[2]? = some (Token.natVal e.index)) ∧
    recordIds (sceneTokens st.scene st.registry) =
      st.scene.world.iterEntities.map Entity.index := by
  exact ⟨serialize_ok_of_sceneWF fault hNF st hWF,
    fun ac cs idx e => ⟨rfl, rfl⟩, recordIds_sceneTokens _ _⟩

theorem c3_identity_preservation_witness :
    SceneWF exampleState.registry exampleState.scene ∧
    recordIds (sceneTokens exampleState.scene exampleState.registry) = [0, 1, 2] :=
  ⟨exampleWF, by
    have h := (c3_identity_preservation noFaultSink exampleState
      (fun _ _ => rfl) exampleWF).2.2
    rw [h]
    rfl⟩

/-- **C4** (fail-fast on unregistered type): when some occupied chunk's
archetype declares a component type with no registry entry (columns being
present and registered types well-behaved, over a non-faulting sink), the
pass aborts with the panic of the `unwrap` on the `None` returned by
`ComponentRegistry::get` — it is never a silent skip — and returns no
output. -/
theorem c4_fail_fast_unregistered {ε : Type} (fault : List Token → Token → Option ε)
    (st : SerState) (hNF : NoFault fault)
    (hSingle : SceneSingle st.registry st.scene) (hCols : SceneColsOK st.scene)
    (hBad : SceneBadReg st.registry st.scene) :
    (SerializableScene.serialize fault st).1 =
      Except.error (Failure.panic unwrapRegistrationMsg) ∧
    ∀ u st2, SerializableScene.serialize fault st ≠ (Except.ok u, st2) := by
  have hmain : (SerializableScene.serialize fault st).1 =
      Except.error (Failure.panic unwrapRegistrationMsg) := by
    rcases serializableScene_tri fault hNF st hSingle with
      ⟨hwf, _⟩ | ⟨hbc, _⟩ | ⟨_, hrun⟩
    · obtain ⟨a, ha, ck, hck, c, hc, p, hp, _, hreg⟩ := hBad
      have hlen : 0 < c.entities.length := List.length_pos.mpr (occupied_ne_nil hc)
      obtain ⟨set, reg, _, hreg2, _⟩ := hwf a ha ck hck c hc 0 hlen p hp
      rw [hreg] at hreg2
      exact absurd hreg2 (by simp)
    · obtain ⟨a, ha, ck, hck, c, hc, p, hp, hcol⟩ := hbc
      obtain ⟨set, hcol2⟩ := hCols a ha ck hck c hc p hp
      rw [hcol] at hcol2
      exact absurd hcol2 (by simp)
    · exact hrun
  refine ⟨hmain, ?_⟩
  intro u st2 heq
  rw [heq] at hmain
  exact absurd hmain (by simp)

theorem c4_fail_fast_unregistered_witness :
    SceneBadReg posOnlyState.registry posOnlyState.scene ∧
    (SerializableScene.serialize noFaultSink posOnlyState).1 =
      Except.error (Failure.panic unwrapRegistrationMsg) :=
  ⟨posOnly_badReg,
    (c4_fail_fast_unregistered noFaultSink posOnlyState (fun _ _ => rfl)
      posOnly_sceneSingle example_colsOK posOnly_badReg).1⟩

/-- **C5** (determinism): the serialization pass is a pure function of the
scene, the registry and the sink: two passes over equal scene, registry and
written-so-far stream, with the same deterministic sink, produce identical
results (identical output streams in particular).  The source iterates only
storage structures, never the registry's hash map, so no iteration-order
nondeterminism exists. -/
theorem c5_determinism {ε : Type} (fault : List Token → Token → Option ε)
    (st1 st2 : SerState) (hsc : st1.scene = st2.scene)
    (hreg : st1.registry = st2.registry) (hout : st1.out = st2.out) :
    SerializableScene.serialize fault st1 = SerializableScene.serialize fault st2 := by
  obtain ⟨sc1, r1, o1⟩ := st1
  obtain ⟨sc2, r2, o2⟩ := st2
  cases hsc
  cases hreg
  cases hout
  rfl

theorem c5_determinism_witness :
    exampleState.scene = exampleState.scene ∧
    SerializableScene.serialize noFaultSink exampleState =
      SerializableScene.serialize noFaultSink exampleState :=
  ⟨rfl, c5_determinism noFaultSink exampleState exampleState rfl rfl rfl⟩

/-- **C6** (sink errors propagate verbatim): every sink error surfaced by the
top-level serialize call is exactly a value the fault oracle produced for
some stream prefix and token (never substituted), and a successful pass wrote
a stream extension every token of which the sink accepted at exactly the
prefix it was written after (no error was swallowed, no retry, no partial
result substituted). -/
theorem c6_sink_error_propagation {ε : Type} (fault : List Token → Token → Option ε)
    (st : SerState) :
    (∀ e, (SerializableScene.serialize fault st).1 =
        Except.error (Failure.sink e) → ∃ pre t, fault pre t = some e) ∧
    (∀ u, (SerializableScene.serialize fault st).1 = Except.ok u →
      ∃ new, (SerializableScene.serialize fault st).2.out = st.out ++ new ∧
        FaultFree fault st.out new) := by
  obtain ⟨_, _, _, hsink, hok⟩ := sound_serializableScene fault st
  exact ⟨hsink, hok⟩

theorem c6_sink_error_propagation_witness :
    ∃ pre t, failSink pre t = some 7 :=
  (c6_sink_error_propagation failSink exampleState).1 7 rfl

/-- **C7** (registry overwrite): registering two registrations carrying the
same type id leaves exactly one entry under that type id — the second
registration; every surviving entry under the shared type id is the second
registration, `get` on that type id returns the second registration, no
error is raised (the operation is total), and `get` on a type id with no
entry returns `none`. -/
theorem c7_registry_overwrite (r : ComponentRegistry)
    (reg1 reg2 : ComponentRegistration) (hty : reg1.ty = reg2.ty) :
    ((r.register reg1).register reg2).registrations.countP
        (fun p => p.1 == reg2.ty) = 1 ∧
    (∀ q ∈ ((r.register reg1).register reg2).registrations,
      q.1 = reg1.ty → q.2 = reg2) ∧
    ((r.register reg1).register reg2).get reg2.ty = some reg2 ∧
    ∀ t, (∀ q ∈ ((r.register reg1).register reg2).registrations, q.1 ≠ t) →
      ((r.register reg1).register reg2).get t = none := by
  refine ⟨?_, ?_, ComponentRegistry.get_register_self _ reg2, ?_⟩
  · show ((reg2.ty, reg2) ::
      ((r.register reg1).registrations.filter (fun p => p.1 != reg2.ty))).countP
        (fun p => p.1 == reg2.ty) = 1
    rw [List.countP_cons]
    simp [countP_key_filter_ne]
  · intro q hq hqty
    rcases List.mem_cons.mp hq with hq1 | hq2
    · rw [hq1]
    · have h := List.of_mem_filter hq2
      rw [hqty, hty] at h
      simp at h
  · intro t hall
    unfold ComponentRegistry.get
    have hfind : ((r.register reg1).register reg2).registrations.find?
        (fun p => p.1 == t) = none := by
      rw [List.find?_eq_none]
      intro q hq
      simp [hall q hq]
    rw [hfind]
    rfl

theorem c7_registry_overwrite_witness :
    posRegistration.ty = posRegistrationB.ty ∧
    ((ComponentRegistry.empty.register posRegistration).register
      posRegistrationB).get posRegistrationB.ty = some posRegistrationB :=
  ⟨rfl, (c7_registry_overwrite ComponentRegistry.empty posRegistration
    posRegistrationB rfl).2.2.1⟩

/-- **C8** (frame property): a serialization pass never changes the scene or
the registry — whatever the result, the state after the pass holds the same
scene and the same registry as before — and its only effect on the world is
appending tokens to the output sink. -/
theorem c8_no_mutation {ε : Type} (fault : List Token → Token → Option ε)
    (st : SerState) :
    (SerializableScene.serialize fault st).2.scene = st.scene ∧
    (SerializableScene.serialize fault st).2.registry = st.registry ∧
    ∃ new, (SerializableScene.serialize fault st).2.out = st.out ++ new := by
  obtain ⟨hsc, hreg, hout, _, _⟩ := sound_serializableScene fault st
  exact ⟨hsc, hreg, hout⟩

theorem c8_no_mutation_witness :
    (SerializableScene.serialize failSink exampleState).2.scene =
      exampleState.scene ∧
    (SerializableScene.serialize noFaultSink exampleState).2.registry =
      exampleState.registry :=
  ⟨(c8_no_mutation failSink exampleState).1,
    (c8_no_mutation noFaultSink exampleState).2.1⟩

/-- **C9** (column invariant): with every declared type registered and
well-behaved over a non-faulting sink, if some occupied chunk lacks a column
for a type its archetype declares, the pass fails fatally with the panic of
the `unwrap` on the `None` from `ComponentStorage::components` (no
recovery); conversely, when every declared column is present that failure
branch is unreachable and the pass succeeds. -/
theorem c9_column_unwrap_invariant {ε : Type} (fault : List Token → Token → Option ε)
    (st : SerState) (hNF : NoFault fault)
    (hSingle : SceneSingle st.registry st.scene)
    (hRegs : SceneRegsOK st.registry st.scene) :
    (SceneBadCol st.scene →
      (SerializableScene.serialize fault st).1 =
        Except.error (Failure.panic unwrapColumnMsg)) ∧
    (SceneColsOK st.scene →
      ∃ st2, SerializableScene.serialize fault st = (Except.ok (), st2)) := by
  rcases serializableScene_tri fault hNF st hSingle with
    ⟨hwf, hrun⟩ | ⟨hbc, hrun⟩ | ⟨hbr, hrun⟩
  · constructor
    · intro hbad
      obtain ⟨a, ha, ck, hck, c, hc, p, hp, hcol⟩ := hbad
      have hlen : 0 < c.entities.length := List.length_pos.mpr (occupied_ne_nil hc)
      obtain ⟨set, reg, hcol2, _, _⟩ := hwf a ha ck hck c hc 0 hlen p hp
      rw [hcol] at hcol2
      exact absurd hcol2 (by simp)
    · intro _
      exact ⟨_, hrun⟩
  · constructor
    · intro _
      exact hrun
    · intro hCols
      obtain ⟨a, ha, ck, hck, c, hc, p, hp, hcol⟩ := hbc
      obtain ⟨set, hcol2⟩ := hCols a ha ck hck c hc p hp
      rw [hcol] at hcol2
      exact absurd hcol2 (by simp)
  · obtain ⟨a, ha, ck, hck, c, hc, p, hp, _, hreg⟩ := hbr
    obtain ⟨reg, hreg2⟩ := hRegs a ha ck hck c hc p hp
    rw [hreg] at hreg2
    exact absurd hreg2 (by simp)

theorem c9_column_unwrap_invariant_witness :
    SceneBadCol noVelColState.scene ∧
    (SerializableScene.serialize noFaultSink noVelColState).1 =
      Except.error (Failure.panic unwrapColumnMsg) :=
  ⟨noVelCol_badCol,
    (c9_column_unwrap_invariant noFaultSink noVelColState (fun _ _ => rfl)
      noVelCol_sceneSingle noVelCol_regsOK).1 noVelCol_badCol⟩

/-- **C10**: `EntityComponent::serialize` completes without panicking exactly
when the registration's `individual_comp_serialize_fn` invokes the provided
callback exactly once: zero invocations panic at `result.unwrap()`, a second
invocation panics at the `take()` of the consumed serializer cell, and one
invocation consumes the serializer and yields its result (ok or sink
error). -/
theorem c10_callback_exactly_once {ε : Type} (fault : List Token → Token → Option ε)
    (ec : EntityComponent) (st : SerState) :
    (∀ msg, (EntityComponent.serialize fault ec st).1 ≠
      Except.error (Failure.panic msg)) ↔
    (ec.component_registration.individual_comp_serialize_fn
      ec.component_resource_set ec.index).length = 1 := by
  cases hv : ec.component_registration.individual_comp_serialize_fn
      ec.component_resource_set ec.index with
  | nil =>
    have hrun : EntityComponent.serialize fault ec st =
        (Except.error (Failure.panic unwrapResultMsg), st) := by
      unfold EntityComponent.serialize
      rw [hv]
      rfl
    constructor
    · intro h
      exact absurd (by rw [hrun]) (h unwrapResultMsg)
    · intro h
      simp at h
  | cons v rest =>
    cases rest with
    | nil =>
      constructor
      · intro _
        rfl
      · intro _ msg
        cases hf : fault st.out (Token.value v) with
        | some e =>
          have hrun : EntityComponent.serialize fault ec st =
              (Except.error (Failure.sink e), st) := by
            unfold EntityComponent.serialize
            rw [hv]
            simp [ecCallbackLoop, serializeErased, hf]
          rw [hrun]
          simp
        | none =>
          have hrun : EntityComponent.serialize fault ec st =
              (Except.ok (), { st with out := st.out ++ [Token.value v] }) := by
            unfold EntityComponent.serialize
            rw [hv]
            simp [ecCallbackLoop, serializeErased, hf]
          rw [hrun]
          simp
    | cons w rest2 =>
      have hrun : EntityComponent.serialize fault ec st =
          (Except.error (Failure.panic unwrapTakenMsg), st) := by
        unfold EntityComponent.serialize
        rw [hv]
        rfl
      constructor
      · intro h
        exact absurd (by rw [hrun]) (h unwrapTakenMsg)
      · intro h
        simp at h

theorem c10_callback_exactly_once_witness :
    (posRegistration.individual_comp_serialize_fn ⟨[10, 11]⟩ 0).length = 1 ∧
    (EntityComponent.serialize noFaultSink
        { index := 0, component_resource_set := ⟨[10, 11]⟩,
          component_registration := posRegistration } exampleState).1 ≠
      Except.error (Failure.panic unwrapResultMsg) :=
  ⟨rfl,
    (c10_callback_exactly_once noFaultSink
      { index := 0, component_resource_set := ⟨[10, 11]⟩,
        component_registration := posRegistration } exampleState).mpr rfl
      unwrapResultMsg⟩

end BevyScene
